import Mathlib

/-
Verification development for routify.js (mercmobily/routify).

The file embeds the routing core of src/routify.js as executable Lean
definitions and proves properties about them:

* the URL pattern matcher (locationMatch, lines 410-464 of routify.js),
* the per-element activation step (maybeActivateElement, lines 134-173),
* the full reconciliation pass (activateCurrentPath, lines 181-203),
* registration and unregistration (registerRoute lines 261-289,
  unregisterRoute lines 299-305) and the helper toggleElementActive
  (lines 209-213).

Modelling conventions:

* DOM elements are identified by natural numbers; their resolved routify
  configuration (path template, routing group, fallback flag,
  disable-activation flag, presence of the two callbacks) is given by an
  environment function, mirroring the accessor helpers
  getPagePathFromEl / getRoutingGroupFromEl / getFallbackFromEl /
  getDisableActivationFromEl.  The active attribute/property pair is a
  single boolean per element, since toggleElementActive always writes
  both together.
* The module state (the elements table keyed by group name, the set of
  active elements, the routerInstalled flag and the per-element
  __routingRegistered marks) is an explicit record RState, threaded
  through the functions.  The groups table is a key-value list in
  insertion order, matching Object.keys enumeration order for the
  non-index-like group-name keys routify uses.
* Awaited callbacks, console.error / console.warn reports and the
  route-activated CustomEvent are recorded as an ordered event trace.
  Hook suspension is modelled as run-to-completion, matching the
  single-threaded sequential await structure of one reconciliation pass.
* The JavaScript expression new URL(t, base) applied to a template is
  modelled by splitting t at its first '#' character into a path part
  and a fragment, resolving a missing leading '/' against the base path;
  this coincides with URL semantics for templates of the documented
  syntax (literal, ':name' and '*' segments, optional hash suffix).
  window.location is modelled as a record of its pathname and hash
  strings.
* Truthiness of JavaScript values is made explicit: a template value is
  falsy when it is absent or the empty string (an array is always
  truthy), and the object of matched parameters returned by the matcher
  is truthy even when it is empty.
-/

namespace Routify

/-- Parameter mapping built by the matcher: keys in insertion order. -/
abbrev Params := List (String × String)

/-- Result of locationMatch: a parameter object, the value false, or the
bare undefined return at line 411 of routify.js. -/
inductive LMResult where
  | params (ps : Params)
  | fls
  | undef
deriving DecidableEq, Repr

/-- JavaScript truthiness of an LMResult: a parameter object is truthy
even when empty; false and undefined are falsy. -/
def truthy : LMResult → Bool
  | .params _ => true
  | .fls => false
  | .undef => false

/-- Parameter payload of a truthy LMResult. -/
def paramsOf : LMResult → Params
  | .params ps => ps
  | .fls => []
  | .undef => []

/-- Browser location: pathname plus hash as exposed by window.location
(hash is empty or starts with the '#' character). -/
structure Loc where
  pathname : String
  hash : String
deriving DecidableEq, Repr

/-- Path template value accepted by locationMatch: absent (false), a
single string, or an array of alternative strings. -/
inductive PathSpec where
  | nul
  | str (s : String)
  | arr (ss : List String)
deriving DecidableEq, Repr

/-- JavaScript truthiness of a path template value: false and the empty
string are falsy, arrays are truthy. -/
def pathTruthy : PathSpec → Bool
  | .nul => false
  | .str s => !(s == "")
  | .arr _ => true

/-- Test that a string starts with the given character (the JavaScript
startsWith on a one-character needle). -/
def startsWithChar (c : Char) (s : String) : Bool :=
  match s.data with
  | [] => false
  | a :: _ => a = c

/-- Test that a string ends with the given character (the JavaScript
endsWith on a one-character needle). -/
def endsWithChar (c : Char) (s : String) : Bool :=
  match s.data.getLast? with
  | some a => a = c
  | none => false

/-- Split a character list on a separator character, keeping empty
segments, like the JavaScript split on a one-character separator. -/
def splitCharList (sep : Char) : List Char → List (List Char)
  | [] => [[]]
  | c :: cs =>
    if c = sep then [] :: splitCharList sep cs
    else
      match splitCharList sep cs with
      | [] => [[c]]
      | seg :: rest => (c :: seg) :: rest

/-- Split a string on a separator character. -/
def splitOnChar (sep : Char) (s : String) : List String :=
  (splitCharList sep s.data).map (fun l => String.mk l)

/-- Characters strictly before the first occurrence of c (the whole
list when c does not occur). -/
def takeUntilChar (c : Char) : List Char → List Char
  | [] => []
  | a :: as => if a = c then [] else a :: takeUntilChar c as

/-- Characters strictly after the first occurrence of c (empty when c
does not occur). -/
def dropThroughChar (c : Char) : List Char → List Char
  | [] => []
  | a :: as => if a = c then as else dropThroughChar c as

/-- Hash comparison of routify.js lines 427-431: templateHash and
browserHash are the fragment texts, templateHashEmpty records that the
template string ends in the '#' character. -/
def hashMatches (templateHash browserHash : String) (templateHashEmpty : Bool) : Bool :=
  if templateHash ≠ "" ∨ templateHashEmpty = true then
    if templateHashEmpty = true ∧ browserHash ≠ "" then false
    else if templateHash = "*" ∧ browserHash ≠ "" then true
    else templateHash == browserHash
  else true

/-- Per-segment loop of routify.js lines 436-446: ':name' segments bind
unconditionally, '*' segments require a non-empty browser segment, other
segments must be equal.  Returns the accumulated parameters on success. -/
def segMatch : List String → List String → Params → Option Params
  | [], [], acc => some acc
  | t :: ts, b :: bs, acc =>
    if startsWithChar ':' t then segMatch ts bs (acc ++ [(t.drop 1, b)])
    else if t = "*" ∧ b ≠ "" then segMatch ts bs acc
    else if t = b then segMatch ts bs acc
    else none
  | _, _, _ => none

/-- Decomposition of a template string into the data routify.js reads
from new URL(t, base) and t itself: the pathname split on '/', the hash
fragment text, and whether t ends in the '#' character. -/
def templateParts (t : String) : List String × String × Bool :=
  let p := String.mk (takeUntilChar '#' t.data)
  let pathname := if startsWithChar '/' p then p else "/" ++ p
  (splitOnChar '/' pathname, String.mk (dropThroughChar '#' t.data), endsWithChar '#' t)

/-- Core matcher of routify.js lines 412-454 for a single template
string; none models the false return. -/
def locationMatchExecutor (loc : Loc) (templateUrl : String)
    (checker : Option (Params → Bool)) : Option Params :=
  let tp := templateParts templateUrl
  let templatePath := tp.1
  let templateHash := tp.2.1
  let templateHashEmpty := tp.2.2
  let browserPath := splitOnChar '/' loc.pathname
  let browserHash := (if loc.hash = "" then "#" else loc.hash).drop 1
  if templatePath.length ≠ browserPath.length then none
  else if hashMatches templateHash browserHash templateHashEmpty = false then none
  else
    match segMatch templatePath browserPath [] with
    | none => none
    | some ps =>
      match checker with
      | none => some ps
      | some c => if c ps then some ps else none

/-- Alternative loop of routify.js lines 458-462: first truthy executor
result wins, otherwise false. -/
def locationMatchList (loc : Loc) : List String → Option (Params → Bool) → LMResult
  | [], _ => .fls
  | t :: ts, c =>
    match locationMatchExecutor loc t c with
    | some ps => .params ps
    | none => locationMatchList loc ts c

/-- locationMatch of routify.js lines 410-464: bare return on a falsy
template, executor on a single string, first-match loop on an array. -/
def locationMatch (loc : Loc) (templateUrl : PathSpec)
    (checker : Option (Params → Bool)) : LMResult :=
  if pathTruthy templateUrl = false then .undef
  else
    match templateUrl with
    | .nul => .undef
    | .str t =>
      match locationMatchExecutor loc t checker with
      | some ps => .params ps
      | none => .fls
    | .arr ts => locationMatchList loc ts checker

/-- Resolved routify configuration of one element, as produced by the
accessor helpers of routify.js lines 66-103: path template, routing
group name, declared-fallback flag, disable-activation flag, and
presence of the preRouterCallback / routerCallback properties. -/
structure El where
  path : PathSpec
  group : String
  fallbackDecl : Bool
  disableActivation : Bool
  hasPre : Bool
  hasCb : Bool
deriving DecidableEq, Repr

/-- Observable effects of the engine, in chronological order: the
console.error of line 142, the double-registration warning of line 277,
the route-activated CustomEvent of line 212, and the two awaited
callbacks with the parameter object they receive. -/
inductive Event where
  | errorNoPath (e : Nat)
  | warnDoubleReg (e : Nat)
  | routeActivated (e : Nat)
  | preHook (e : Nat) (ps : Params)
  | hook (e : Nat) (ps : Params)
deriving DecidableEq, Repr

/-- One entry of the elements table: member list in registration order,
fallback element and currently active element. -/
structure GroupState where
  list : List Nat
  fallback : Option Nat
  activeElement : Option Nat
deriving DecidableEq, Repr

/-- Module state of routify.js: the elements table in key-insertion
order, every element's active attribute/property, the per-element
__routingRegistered marks, and the routerInstalled flag. -/
structure RState where
  groups : List (String × GroupState)
  active : Nat → Bool
  registered : Nat → Bool
  routerInstalled : Bool

/-- Lookup of the first entry with the given group name. -/
def findGroup : List (String × GroupState) → String → Option GroupState
  | [], _ => none
  | p :: ps, g => if p.1 = g then some p.2 else findGroup ps g

/-- Freshly created group entry, as on lines 16 and 265. -/
def emptyGroup : GroupState := ⟨[], none, none⟩

/-- Read the elements table at a group name. -/
def getGroup (s : RState) (g : String) : GroupState :=
  (findGroup s.groups g).getD emptyGroup

/-- Replace the (unique) entry with the given group name. -/
def setGroupList : List (String × GroupState) → String → GroupState → List (String × GroupState)
  | [], _, _ => []
  | p :: ps, g, gs => if p.1 = g then (g, gs) :: ps else p :: setGroupList ps g gs

/-- Write the elements table at a group name. -/
def setGroup (s : RState) (g : String) (gs : GroupState) : RState :=
  { s with groups := setGroupList s.groups g gs }

/-- Assignment to elements[group].activeElement. -/
def setActiveElement (s : RState) (g : String) (v : Option Nat) : RState :=
  setGroup s g { getGroup s g with activeElement := v }

/-- toggleElementActive of routify.js lines 209-213: write the active
attribute/property and dispatch route-activated when activating. -/
def toggleElementActive (s : RState) (e : Nat) (active : Bool) : RState × List Event :=
  ({ s with active := fun x => if x = e then active else s.active x },
   if active then [Event.routeActivated e] else [])

/-- Sequential await of the preRouterCallback and routerCallback
properties when present, each receiving the parameter object. -/
def hookEvents (el : El) (e : Nat) (ps : Params) : List Event :=
  (if el.hasPre then [Event.preHook e ps] else [])
    ++ (if el.hasCb then [Event.hook e ps] else [])

/-- Match result of an element's template against the location, as
computed on line 146 (no checker at this call site). -/
def mval (env : Nat → El) (loc : Loc) (e : Nat) : LMResult :=
  locationMatch loc (env e).path none

/-- maybeActivateElement of routify.js lines 134-173. -/
def maybeActivateElement (env : Nat → El) (loc : Loc) (e : Nat) (s : RState) :
    Bool × RState × List Event :=
  let el := env e
  let g := getGroup s el.group
  if pathTruthy el.path = false ∧ g.fallback ≠ some e ∧ el.disableActivation = false then
    (false, s, [Event.errorNoPath e])
  else
    let m := mval env loc e
    if el.disableActivation = true ∧ truthy m = true then
      (false, s, hookEvents el e (paramsOf m))
    else
      let t1 :=
        if truthy m ≠ s.active e then toggleElementActive s e (truthy m)
        else (s, [])
      let ev2 :=
        if truthy m = true ∧ g.activeElement ≠ some e then hookEvents el e (paramsOf m)
        else []
      let s2 :=
        if truthy m = true ∧ el.disableActivation = false
        then setActiveElement t1.1 el.group (some e)
        else t1.1
      (truthy m, s2, t1.2 ++ ev2)

/-- Member loop of routify.js lines 187-190, threading the oneActive
accumulator. -/
def evalList (env : Nat → El) (loc : Loc) : List Nat → RState → Bool → Bool × RState × List Event
  | [], s, one => (one, s, [])
  | e :: es, s, one =>
    let r := maybeActivateElement env loc e s
    let rest := evalList env loc es r.2.1 (one || r.1)
    (rest.1, rest.2.1, r.2.2 ++ rest.2.2)

/-- Body of the per-group iteration of activateCurrentPath, lines
185-200: reset the active element, evaluate every member, then toggle
the fallback and run its callbacks with an empty parameter object when
no member was active. -/
def reconcileOneGroup (env : Nat → El) (loc : Loc) (g : String) (s : RState) :
    RState × List Event :=
  let s0 := setActiveElement s g none
  let r := evalList env loc (getGroup s g).list s0 false
  match (getGroup r.2.1 g).fallback with
  | none => (r.2.1, r.2.2)
  | some f =>
    let t := toggleElementActive r.2.1 f (!r.1)
    let ev2 := if !r.1 then hookEvents (env f) f [] else []
    (t.1, r.2.2 ++ t.2 ++ ev2)

/-- Group loop of activateCurrentPath, lines 182-201.  The third
component records whether the early return of line 183 fired: a group
with an empty member list aborts the whole pass. -/
def processGroups (env : Nat → El) (loc : Loc) :
    List String → RState → RState × List Event × Bool
  | [], s => (s, [], false)
  | g :: gs, s =>
    if (getGroup s g).list = [] then (s, [], true)
    else
      let r := reconcileOneGroup env loc g s
      let rest := processGroups env loc gs r.1
      (rest.1, r.2 ++ rest.2.1, rest.2.2)

/-- activateCurrentPath of routify.js lines 181-203: iterate the groups
table in key order. -/
def activateCurrentPath (env : Nat → El) (loc : Loc) (s : RState) : RState × List Event :=
  let r := processGroups env loc (s.groups.map Prod.fst) s
  (r.1, r.2.1)

/-- Reference group loop with no early return: reconcile every group in
order.  Declared for specification purposes only (the amended form of
the iteration contract); processGroups is the embedding of the code. -/
def reconcileFold (env : Nat → El) (loc : Loc) : List String → RState → RState × List Event
  | [], s => (s, [])
  | g :: gs, s =>
    let r := reconcileOneGroup env loc g s
    let rest := reconcileFold env loc gs r.1
    (rest.1, r.2 ++ rest.2)

/-- Lazy group creation of routify.js line 265. -/
def ensureGroup (s : RState) (g : String) : RState :=
  if (findGroup s.groups g).isSome then s
  else { s with groups := s.groups ++ [(g, emptyGroup)] }

/-- registerRoute of routify.js lines 261-289.  The first registration
installs the router, whose installation runs a full synchronous
activation pass (line 365 of installRouter); the element is then
recorded, pushed onto its group's member list, possibly made the
group's fallback, and finally either evaluated alone (no fallback) or
by a full pass (fallback present). -/
def registerRoute (env : Nat → El) (loc : Loc) (e : Nat) (s : RState) :
    RState × List Event :=
  let el := env e
  let g := el.group
  let s1 := ensureGroup s g
  let inst :=
    if s1.routerInstalled then (s1, ([] : List Event))
    else
      let r := activateCurrentPath env loc s1
      ({ r.1 with routerInstalled := true }, r.2)
  let s2 := inst.1
  let ev2 := if s2.registered e then [Event.warnDoubleReg e] else []
  let s3 := { s2 with registered := fun x => if x = e then true else s2.registered x }
  let g3 := getGroup s3 g
  let s4 := setGroup s3 g { g3 with list := g3.list ++ [e] }
  let s5 :=
    if (getGroup s4 g).fallback = none ∧ el.fallbackDecl = true
    then setGroup s4 g { getGroup s4 g with fallback := some e }
    else s4
  if (getGroup s5 g).fallback = none then
    let r := maybeActivateElement env loc e s5
    (r.2.1, inst.2 ++ ev2 ++ r.2.2)
  else
    let r := activateCurrentPath env loc s5
    (r.1, inst.2 ++ ev2 ++ r.2)

/-- unregisterRoute of routify.js lines 299-305: filter the element out
of its group's member list; the activeElement and fallback fields are
left untouched. -/
def unregisterRoute (env : Nat → El) (e : Nat) (s : RState) : RState :=
  let g := (env e).group
  match findGroup s.groups g with
  | none => s
  | some gs => setGroup s g { gs with list := gs.list.filter (fun x => x ≠ e) }

/-- Initial module state of routify.js lines 16-17: a default group with
no members, nothing active, nothing registered, router not installed. -/
def initialState : RState :=
  ⟨[("default", emptyGroup)], fun _ => false, fun _ => false, false⟩

/-- Discriminator used to state that locationMatch produced a parameter
object or false (and not the bare undefined return of line 411). -/
def isParamsOrFls : LMResult → Bool
  | .params _ => true
  | .fls => true
  | .undef => false

/-- An element counts toward the oneActive accumulator exactly when its
template matches and its activation is not disabled. -/
def matchedEnabled (env : Nat → El) (loc : Loc) (e : Nat) : Bool :=
  truthy (mval env loc e) && !(env e).disableActivation



/-- Concrete element environment for witnesses and counterexamples:
element 0 routes /a, element 1 routes /b, element 2 is a fallback
without a path, element 3 routes /a with activation disabled, element 4
has no path at all, and everything else routes /a in group g1. -/
def envA : Nat → El := fun e =>
  if e = 0 then ⟨.str "/a", "default", false, false, true, true⟩
  else if e = 1 then ⟨.str "/b", "default", false, false, true, true⟩
  else if e = 2 then ⟨.nul, "default", true, false, true, true⟩
  else if e = 3 then ⟨.str "/a", "default", false, true, true, true⟩
  else if e = 4 then ⟨.nul, "default", false, false, true, true⟩
  else ⟨.str "/a", "g1", false, false, true, true⟩

/-- Concrete location /a with an empty hash. -/
def locA : Loc := ⟨"/a", ""⟩

/-- Concrete state: elements 0, 1, 3 and 4 registered in the default
group, nothing active, router installed. -/
def stA : RState :=
  ⟨[("default", ⟨[0, 1, 3, 4], none, none⟩)], fun _ => false, fun _ => false, true⟩

/-- Concrete state: members 0 and 1 plus the fallback element 2 in the
default group. -/
def stF : RState :=
  ⟨[("default", ⟨[0, 1, 2], some 2, none⟩)], fun _ => false, fun _ => false, true⟩

/-- Concrete state: an empty default group followed by a group g1 whose
only member is element 5. -/
def stC1 : RState :=
  ⟨[("default", emptyGroup), ("g1", ⟨[5], none, none⟩)],
    fun _ => false, fun _ => false, true⟩

/-- Shape of one groups-table entry: name, member list and fallback,
without the active-element record. -/
def entryShape (p : String × GroupState) : String × List Nat × Option Nat :=
  (p.1, p.2.list, p.2.fallback)

/-- Shape of the whole groups table: everything a reconciliation pass
never writes. -/
def groupsShape (s : RState) : List (String × List Nat × Option Nat) :=
  s.groups.map entryShape

/-- Condition of the missing-path error branch, lines 141-144. -/
def ErrCond (env : Nat → El) (fb : Option Nat) (e : Nat) : Prop :=
  pathTruthy (env e).path = false ∧ fb ≠ some e ∧ (env e).disableActivation = false

/-- Condition of the disabled-activation detour, lines 149-153. -/
def DetourCond (env : Nat → El) (loc : Loc) (e : Nat) : Prop :=
  (env e).disableActivation = true ∧ truthy (mval env loc e) = true

/-- Condition under which maybeActivateElement reaches the flag-toggling
logic of lines 155-158. -/
def NormalCond (env : Nat → El) (loc : Loc) (fb : Option Nat) (e : Nat) : Prop :=
  ¬ ErrCond env fb e ∧ ¬ DetourCond env loc e

instance (env : Nat → El) (fb : Option Nat) (e : Nat) : Decidable (ErrCond env fb e) := by
  unfold ErrCond; infer_instance

instance (env : Nat → El) (loc : Loc) (e : Nat) : Decidable (DetourCond env loc e) := by
  unfold DetourCond; infer_instance

instance (env : Nat → El) (loc : Loc) (fb : Option Nat) (e : Nat) :
    Decidable (NormalCond env loc fb e) := by
  unfold NormalCond; infer_instance

/-- Last element of the list that is matched and activation-enabled,
else the initial value: the value of the activeElement record left by
the member loop. -/
def lastMatched (env : Nat → El) (loc : Loc) (L : List Nat) (init : Option Nat) : Option Nat :=
  L.foldl (fun a e => if matchedEnabled env loc e = true then some e else a) init

/-- Observable equality of two module states: same active flags and the
same groups table up to the representation of the flag function. -/
def ObsEq (s t : RState) : Prop :=
  (∀ x, s.active x = t.active x)
  ∧ (∀ g, getGroup s g = getGroup t g)
  ∧ groupsShape s = groupsShape t

/-- Group-coherence of a state at one group name: the members and the
fallback of the group resolve to that group name.  This is how
registerRoute always leaves the table. -/
def HG (env : Nat → El) (s : RState) (g : String) : Prop :=
  (∀ e ∈ (getGroup s g).list, (env e).group = g)
  ∧ (∀ f, (getGroup s g).fallback = some f → (env f).group = g)

/-- Group-coherence along a list of group names. -/
def KWF (env : Nat → El) (s : RState) (K : List String) : Prop :=
  ∀ g ∈ K, HG env s g

/-- Fallback coherence as a boolean, for decidable well-formedness. -/
def fbOK (env : Nat → El) (g : String) : Option Nat → Bool
  | none => true
  | some f => (env f).group == g

/-- Well-formed module state: group names are unique in the table, and
every entry lists only members (and a fallback) that resolve to its
name.  Every state reachable through registerRoute satisfies this. -/
def WF (env : Nat → El) (s : RState) : Prop :=
  (s.groups.map Prod.fst).Nodup
  ∧ ∀ p ∈ s.groups, (∀ e ∈ p.2.list, (env e).group = p.1) ∧ fbOK env p.1 p.2.fallback = true

instance (env : Nat → El) (s : RState) : Decidable (WF env s) := by
  unfold WF
  infer_instance

/-- The invariant of claim C8, read through the table lookup: a group's
active-element record, when set, is a member of that group's list. -/
def Inv (s : RState) : Prop :=
  ∀ g a, (getGroup s g).activeElement = some a → a ∈ (getGroup s g).list

/-- Fixed point of the per-group reconciliation body at one group: the
active-element record and the flags of the group's members and fallback
already hold the values a reconciliation of this group writes. -/
def FixG (env : Nat → El) (loc : Loc) (t : RState) (g : String) : Prop :=
  (getGroup t g).activeElement = lastMatched env loc (getGroup t g).list none
  ∧ (∀ x, (getGroup t g).fallback = some x →
      t.active x = !((getGroup t g).list.any (matchedEnabled env loc)))
  ∧ (∀ x, (getGroup t g).fallback ≠ some x → x ∈ (getGroup t g).list →
      NormalCond env loc (getGroup t g).fallback x → t.active x = truthy (mval env loc x))

/-- Concrete state: the single matching element 0 registered in the
default group. -/
def stB : RState :=
  ⟨[("default", ⟨[0], none, none⟩)], fun _ => false, fun _ => false, true⟩

/-- Concrete state: element 0 registered and recorded as the default
group's active element, as a pass over location /a leaves it. -/
def stU : RState :=
  ⟨[("default", ⟨[0], none, some 0⟩)], fun x => x == 0, fun _ => false, true⟩

end Routify

namespace Routify

/-- Claim C4: in the per-segment loop, a ':name' template segment
matches any browser segment, the empty string included, and binds the
name to it; a '*' template segment matches only a non-empty browser
segment, and a '*' facing an empty segment fails the whole match;
successful matching only ever appends to the accumulated bindings. -/
theorem segMatch_segment_rules :
    (∀ t ts b bs acc, startsWithChar ':' t = true →
      segMatch (t :: ts) (b :: bs) acc = segMatch ts bs (acc ++ [(t.drop 1, b)]))
  ∧ (∀ ts b bs acc, b ≠ "" →
      segMatch ("*" :: ts) (b :: bs) acc = segMatch ts bs acc)
  ∧ (∀ ts1 ts2 bs1 bs2 acc, ts1.length = bs1.length →
      segMatch (ts1 ++ "*" :: ts2) (bs1 ++ "" :: bs2) acc = none)
  ∧ (∀ ts bs acc r, segMatch ts bs acc = some r → ∃ rest, r = acc ++ rest) := by
  refine ⟨?_, ?_, ?_, ?_⟩
  · intro t ts b bs acc h
    simp [segMatch, h]
  · intro ts b bs acc h
    have h1 : startsWithChar ':' "*" = false := by decide
    simp [segMatch, h1, h]
  · intro ts1 ts2 bs1 bs2 acc h
    induction ts1 generalizing bs1 acc with
    | nil =>
      cases bs1 with
      | nil =>
        have h1 : startsWithChar ':' "*" = false := by decide
        simp [segMatch, h1]
      | cons b bs1 => simp at h
    | cons t ts1 ih =>
      cases bs1 with
      | nil => simp at h
      | cons b bs1 =>
        simp only [List.length_cons, Nat.succ.injEq] at h
        simp only [List.cons_append, segMatch]
        by_cases h1 : startsWithChar ':' t
        · simp [h1, ih _ _ h]
        · by_cases h2 : t = "*" ∧ b ≠ ""
          · simp [h1, h2, ih _ _ h]
          · by_cases h3 : t = b
            · simp [h1, h2, h3, ih _ _ h]
            · simp [h1, h2, h3]
  · intro ts
    induction ts with
    | nil =>
      intro bs acc r h
      cases bs with
      | nil => exact ⟨[], by simpa [segMatch] using h.symm⟩
      | cons b bs => simp [segMatch] at h
    | cons t ts ih =>
      intro bs acc r h
      cases bs with
      | nil => simp [segMatch] at h
      | cons b bs =>
        simp only [segMatch] at h
        by_cases h1 : startsWithChar ':' t
        · simp only [h1, if_pos] at h
          obtain ⟨rest, hr⟩ := ih _ _ _ h
          exact ⟨(t.drop 1, b) :: rest, by simp [hr]⟩
        · simp only [h1] at h
          by_cases h2 : t = "*" ∧ b ≠ ""
          · simp only [h2, if_pos, if_true] at h
            exact ih _ _ _ (by simpa [h2] using h)
          · by_cases h3 : t = b
            · exact ih _ _ _ (by simpa [h1, h2, h3] using h)
            · simp [h1, h2, h3] at h

/-- Claim C4 witness: the rules evaluated at concrete segments. -/
theorem segMatch_segment_rules_witness :
    segMatch [":id"] [""] [] = segMatch [] [] [("id", "")]
  ∧ segMatch ["*"] ["x"] [] = segMatch [] [] []
  ∧ segMatch ["a", "*"] ["a", ""] [] = none :=
  ⟨segMatch_segment_rules.1 ":id" [] "" [] [] (by decide),
   segMatch_segment_rules.2.1 [] "x" [] [] (by decide),
   segMatch_segment_rules.2.2.1 ["a"] [] ["a"] [] [] (by decide)⟩

/-- Claim C5: hash handling of locationMatch.  With the fragment texts
of the template and the location and the ends-in-hash marker of the
template: an absent hash portion is unconstrained; a '*' hash portion
matches exactly the non-empty location hashes; a bare trailing '#'
matches exactly the empty location hash; any other hash portion must be
equal to the location's hash. -/
theorem hashMatches_rules :
    (∀ bh, hashMatches "" bh false = true)
  ∧ (∀ bh, hashMatches "*" bh false = !(bh == ""))
  ∧ (∀ bh, hashMatches "" bh true = (bh == ""))
  ∧ (∀ th bh, th ≠ "" → th ≠ "*" → hashMatches th bh false = (th == bh)) := by
  refine ⟨?_, ?_, ?_, ?_⟩
  · intro bh
    simp [hashMatches]
  · intro bh
    by_cases h : bh = ""
    · subst h; simp [hashMatches]
    · simp [hashMatches, h]
  · intro bh
    by_cases h : bh = ""
    · subst h; simp [hashMatches]
    · simp [hashMatches, h]
  · intro th bh h1 h2
    by_cases h : bh = ""
    · subst h; simp [hashMatches, h1, h2]
    · simp [hashMatches, h1, h2, h]

/-- Claim C5 witness: the rules at the hashes of the examples of the
specification (template /a#*, /a# and /a against hash foo and against
the empty hash). -/
theorem hashMatches_rules_witness :
    hashMatches "" "foo" false = true
  ∧ hashMatches "*" "foo" false = !("foo" == "")
  ∧ hashMatches "" "foo" true = ("foo" == "")
  ∧ hashMatches "x" "foo" false = ("x" == "foo") :=
  ⟨hashMatches_rules.1 "foo", hashMatches_rules.2.1 "foo",
   hashMatches_rules.2.2.1 "foo",
   hashMatches_rules.2.2.2 "x" "foo" (by decide) (by decide)⟩

/-- Claim C6 (amended): on a list of alternatives locationMatch tries
them in order and returns the parameters of the first alternative whose
executor succeeds, or false when none does, and never returns the bare
undefined; on a single non-empty template string it likewise returns
parameters or false. -/
theorem locationMatch_result_shape :
    (∀ loc ts c, isParamsOrFls (locationMatch loc (.arr ts) c) = true)
  ∧ (∀ loc t c, t ≠ "" → isParamsOrFls (locationMatch loc (.str t) c) = true)
  ∧ (∀ loc t ts c, locationMatch loc (.arr (t :: ts)) c =
      match locationMatchExecutor loc t c with
      | some ps => .params ps
      | none => locationMatch loc (.arr ts) c)
  ∧ (∀ loc c, locationMatch loc (.arr []) c = .fls) := by
  refine ⟨?_, ?_, ?_, ?_⟩
  · intro loc ts c
    simp only [locationMatch, pathTruthy]
    induction ts with
    | nil => simp [locationMatchList, isParamsOrFls]
    | cons t ts ih =>
      simp only [locationMatchList]
      cases locationMatchExecutor loc t c with
      | none => simpa using ih
      | some ps => simp [isParamsOrFls]
  · intro loc t c h
    simp only [locationMatch, pathTruthy, h]
    cases locationMatchExecutor loc t c with
    | none => simp [isParamsOrFls, h]
    | some ps => simp [isParamsOrFls, h]
  · intro loc t ts c
    simp [locationMatch, pathTruthy, locationMatchList]
  · intro loc c
    simp [locationMatch, pathTruthy, locationMatchList]

/-- Claim C6 witness: the shape rules applied at a concrete location and
concrete templates. -/
theorem locationMatch_result_shape_witness :
    isParamsOrFls (locationMatch ⟨"/x", ""⟩ (.arr ["/y", "/x"]) none) = true
  ∧ isParamsOrFls (locationMatch ⟨"/x", ""⟩ (.str "/x") none) = true :=
  ⟨locationMatch_result_shape.1 ⟨"/x", ""⟩ ["/y", "/x"] none,
   locationMatch_result_shape.2.1 ⟨"/x", ""⟩ "/x" none (by decide)⟩

/-- Claim C6 counterexample: on the empty template string, which is a
falsy JavaScript value, locationMatch returns the bare undefined of
line 411 rather than a parameter object or false. -/
theorem locationMatch_empty_template_undef :
    isParamsOrFls (locationMatch ⟨"/a", ""⟩ (.str "") none) = false := by
  decide

/-- Claim C7: for a component with activation disabled,
maybeActivateElement always returns false; when its template matches the
current location it takes the detour of lines 149-153, awaiting the
pre-activation hook then the activation hook with the matched
parameters, while leaving the state untouched (so the active flag is
never set and the element never becomes the group's active element). -/
theorem maybeActivateElement_disabled (env : Nat → El) (loc : Loc) (e : Nat) (s : RState)
    (hdis : (env e).disableActivation = true) :
    (maybeActivateElement env loc e s).1 = false
  ∧ (truthy (mval env loc e) = true →
      maybeActivateElement env loc e s =
        (false, s, hookEvents (env e) e (paramsOf (mval env loc e)))) := by
  by_cases htr : truthy (mval env loc e) = true
  · constructor
    · simp [maybeActivateElement, hdis, htr]
    · intro _
      simp [maybeActivateElement, hdis, htr]
  · have htr' : truthy (mval env loc e) = false := by
      cases h : truthy (mval env loc e)
      · rfl
      · exact absurd h htr
    constructor
    · simp [maybeActivateElement, hdis, htr']
    · intro h
      exact absurd h htr

/-- Claim C9: a component with a falsy path template that is neither
its group's fallback nor activation-disabled makes maybeActivateElement
report the error of line 142 and return false with the state untouched,
and the member loop of activateCurrentPath continues with the remaining
components from the same state and accumulator. -/
theorem maybeActivateElement_no_path (env : Nat → El) (loc : Loc) (e : Nat) (s : RState)
    (h1 : pathTruthy (env e).path = false)
    (h2 : (getGroup s (env e).group).fallback ≠ some e)
    (h3 : (env e).disableActivation = false) :
    maybeActivateElement env loc e s = (false, s, [Event.errorNoPath e])
  ∧ ∀ es one, evalList env loc (e :: es) s one =
      ((evalList env loc es s one).1, (evalList env loc es s one).2.1,
        Event.errorNoPath e :: (evalList env loc es s one).2.2) := by
  have hmae : maybeActivateElement env loc e s = (false, s, [Event.errorNoPath e]) := by
    simp [maybeActivateElement, h1, h2, h3]
  refine ⟨hmae, ?_⟩
  intro es one
  simp [evalList, hmae]

/-- Claim C10: a component with activation disabled whose template does
not match the current location skips the detour and goes through the
normal toggling logic of lines 155-158: its active flag ends up cleared,
no other element's flag changes, no callback or event fires, and the
groups table (in particular every active-element record) is untouched. -/
theorem maybeActivateElement_disabled_unmatched (env : Nat → El) (loc : Loc) (e : Nat) (s : RState)
    (hdis : (env e).disableActivation = true)
    (hnm : truthy (mval env loc e) = false) :
    (maybeActivateElement env loc e s).1 = false
  ∧ (maybeActivateElement env loc e s).2.2 = []
  ∧ (∀ x, (maybeActivateElement env loc e s).2.1.active x =
      if x = e then false else s.active x)
  ∧ (maybeActivateElement env loc e s).2.1.groups = s.groups := by
  by_cases hact : s.active e
  · refine ⟨?_, ?_, ?_, ?_⟩ <;>
      simp [maybeActivateElement, hdis, hnm, hact, toggleElementActive]
  · have hact' : s.active e = false := by
      cases h : s.active e
      · rfl
      · exact absurd h hact
    refine ⟨?_, ?_, ?_, ?_⟩
    · simp [maybeActivateElement, hdis, hnm, hact']
    · simp [maybeActivateElement, hdis, hnm, hact']
    · intro x
      by_cases hx : x = e
      · subst hx
        simp [maybeActivateElement, hdis, hnm, hact']
      · simp [maybeActivateElement, hdis, hnm, hact', hx]
    · simp [maybeActivateElement, hdis, hnm, hact']

/-- Claim C7 witness: the disabled element 3 on location /a. -/
theorem maybeActivateElement_disabled_witness :
    (envA 3).disableActivation = true
  ∧ ((maybeActivateElement envA locA 3 stA).1 = false
      ∧ (truthy (mval envA locA 3) = true →
          maybeActivateElement envA locA 3 stA =
            (false, stA, hookEvents (envA 3) 3 (paramsOf (mval envA locA 3))))) :=
  ⟨by decide, maybeActivateElement_disabled envA locA 3 stA (by decide)⟩

/-- Claim C9 witness: element 4, which has no path, is not the fallback
and is not disabled, on location /a. -/
theorem maybeActivateElement_no_path_witness :
    (pathTruthy (envA 4).path = false
      ∧ (getGroup stA (envA 4).group).fallback ≠ some 4
      ∧ (envA 4).disableActivation = false)
  ∧ maybeActivateElement envA locA 4 stA = (false, stA, [Event.errorNoPath 4]) :=
  ⟨⟨by decide, by decide, by decide⟩,
   (maybeActivateElement_no_path envA locA 4 stA (by decide) (by decide) (by decide)).1⟩

theorem findGroup_setGroupList (l : List (String × GroupState)) (g : String) (gs : GroupState)
    (g' : String) :
    findGroup (setGroupList l g gs) g' =
      if g' = g ∧ (findGroup l g).isSome = true then some gs else findGroup l g' := by
  induction l with
  | nil => simp [setGroupList, findGroup]
  | cons p ps ih =>
    by_cases h : p.1 = g
    · simp only [setGroupList, if_pos h, findGroup, h]
      by_cases h2 : g = g'
      · subst h2; simp
      · have h2' : ¬ g' = g := fun hh => h2 hh.symm
        simp [h2, h2']
    · simp only [setGroupList, if_neg h, findGroup]
      by_cases h2 : p.1 = g'
      · have hne : ¬(g' = g ∧ (findGroup ps g).isSome = true) := by
          rintro ⟨rfl, -⟩; exact h h2
        simp [h2, h, hne]
      · simp [h2, h, ih]

theorem getGroup_setGroup (s : RState) (g : String) (gs : GroupState) (g' : String) :
    getGroup (setGroup s g gs) g' =
      if g' = g ∧ (findGroup s.groups g).isSome = true then gs else getGroup s g' := by
  simp only [getGroup, setGroup, findGroup_setGroupList]
  by_cases h : g' = g ∧ (findGroup s.groups g).isSome = true
  · simp [h]
  · simp [h]

theorem setGroupList_shape (l : List (String × GroupState)) (g : String) (v : Option Nat) :
    (setGroupList l g { (findGroup l g).getD emptyGroup with activeElement := v }).map entryShape
      = l.map entryShape := by
  induction l with
  | nil => simp [setGroupList]
  | cons p ps ih =>
    by_cases h : p.1 = g
    · simp [setGroupList, findGroup, h, entryShape]
    · simp only [findGroup, if_neg h]
      simp [setGroupList, h, entryShape, ih]

theorem groupsShape_setActiveElement (s : RState) (g : String) (v : Option Nat) :
    groupsShape (setActiveElement s g v) = groupsShape s := by
  simp only [groupsShape, setActiveElement, setGroup, getGroup]
  exact setGroupList_shape s.groups g v

theorem toggle_groups (s : RState) (e : Nat) (b : Bool) :
    (toggleElementActive s e b).1.groups = s.groups := rfl

theorem toggle_active (s : RState) (e : Nat) (b : Bool) (x : Nat) :
    (toggleElementActive s e b).1.active x = if x = e then b else s.active x := rfl

theorem findGroup_shape_agree (l l' : List (String × GroupState))
    (h : l.map entryShape = l'.map entryShape) (g : String) :
    (findGroup l g).map (fun gs => (gs.list, gs.fallback))
      = (findGroup l' g).map (fun gs => (gs.list, gs.fallback)) := by
  induction l generalizing l' with
  | nil =>
    cases l' with
    | nil => rfl
    | cons q qs => simp at h
  | cons p ps ih =>
    cases l' with
    | nil => simp at h
    | cons q qs =>
      simp only [List.map_cons, List.cons.injEq] at h
      obtain ⟨h1, h2⟩ := h
      have hk : p.1 = q.1 := congrArg (fun z : String × List Nat × Option Nat => z.1) h1
      have hl : p.2.list = q.2.list := congrArg (fun z : String × List Nat × Option Nat => z.2.1) h1
      have hf : p.2.fallback = q.2.fallback :=
        congrArg (fun z : String × List Nat × Option Nat => z.2.2) h1
      by_cases hg : p.1 = g
      · simp [findGroup, hg, hk ▸ hg, hl, hf]
      · have hg' : ¬ q.1 = g := fun hh => hg (hk ▸ hh)
        simp [findGroup, hg, hg', ih qs h2]

theorem getGroup_shape_agree (s t : RState) (h : groupsShape s = groupsShape t) (g : String) :
    (getGroup s g).list = (getGroup t g).list
      ∧ (getGroup s g).fallback = (getGroup t g).fallback := by
  have hh := findGroup_shape_agree s.groups t.groups h g
  cases hs : findGroup s.groups g with
  | none =>
    cases ht : findGroup t.groups g with
    | none => simp [getGroup, hs, ht]
    | some gt => rw [hs, ht] at hh; simp at hh
  | some gs =>
    cases ht : findGroup t.groups g with
    | none => rw [hs, ht] at hh; simp at hh
    | some gt =>
      rw [hs, ht] at hh
      simp at hh
      simp [getGroup, hs, ht, hh.1, hh.2]

theorem findGroup_isSome_shape_agree (s t : RState) (h : groupsShape s = groupsShape t)
    (g : String) : (findGroup s.groups g).isSome = (findGroup t.groups g).isSome := by
  have hh := findGroup_shape_agree s.groups t.groups h g
  cases hs : findGroup s.groups g with
  | none =>
    cases ht : findGroup t.groups g with
    | none => rfl
    | some gt => rw [hs, ht] at hh; simp at hh
  | some gs =>
    cases ht : findGroup t.groups g with
    | none => rw [hs, ht] at hh; simp at hh
    | some gt => rfl

theorem keys_shape_agree (s t : RState) (h : groupsShape s = groupsShape t) :
    s.groups.map Prod.fst = t.groups.map Prod.fst := by
  have h1 := congrArg (List.map (fun q : String × List Nat × Option Nat => q.1)) h
  simpa [groupsShape, List.map_map, entryShape, Function.comp] using h1

theorem truthy_mval_of_path_falsy (env : Nat → El) (loc : Loc) (e : Nat)
    (h : pathTruthy (env e).path = false) : truthy (mval env loc e) = false := by
  simp [mval, locationMatch, h, truthy]

theorem list_ne_nil_findGroup_isSome (s : RState) (g : String)
    (h : (getGroup s g).list ≠ []) : (findGroup s.groups g).isSome = true := by
  cases hf : findGroup s.groups g with
  | none =>
    exfalso
    apply h
    simp [getGroup, hf, emptyGroup]
  | some gs => rfl

theorem setActiveElement_active (u : RState) (g : String) (v : Option Nat) (y : Nat) :
    (setActiveElement u g v).active y = u.active y := rfl

theorem mae_fst (env : Nat → El) (loc : Loc) (e : Nat) (s : RState) :
    (maybeActivateElement env loc e s).1 = matchedEnabled env loc e := by
  simp only [maybeActivateElement]
  by_cases h1 : pathTruthy (env e).path = false
      ∧ (getGroup s (env e).group).fallback ≠ some e ∧ (env e).disableActivation = false
  · rw [if_pos h1]
    have htr : truthy (mval env loc e) = false := truthy_mval_of_path_falsy env loc e h1.1
    simp [matchedEnabled, htr]
  · rw [if_neg h1]
    by_cases h2 : (env e).disableActivation = true ∧ truthy (mval env loc e) = true
    · rw [if_pos h2]
      simp [matchedEnabled, h2.1]
    · rw [if_neg h2]
      by_cases hd : (env e).disableActivation = true
      · have htr : truthy (mval env loc e) = false := by
          cases h : truthy (mval env loc e)
          · rfl
          · exact absurd ⟨hd, h⟩ h2
        simp [matchedEnabled, htr]
      · have hd' : (env e).disableActivation = false := by
          cases h : (env e).disableActivation
          · rfl
          · exact absurd h hd
        simp [matchedEnabled, hd']

theorem mae_active (env : Nat → El) (loc : Loc) (e : Nat) (s : RState) (x : Nat) :
    (maybeActivateElement env loc e s).2.1.active x =
      if x = e ∧ NormalCond env loc (getGroup s (env e).group).fallback e
      then truthy (mval env loc e) else s.active x := by
  simp only [maybeActivateElement]
  by_cases h1 : pathTruthy (env e).path = false
      ∧ (getGroup s (env e).group).fallback ≠ some e ∧ (env e).disableActivation = false
  · rw [if_pos h1]
    have hn : ¬ (x = e ∧ NormalCond env loc (getGroup s (env e).group).fallback e) := by
      rintro ⟨-, hn, -⟩; exact hn h1
    simp [hn]
  · rw [if_neg h1]
    by_cases h2 : (env e).disableActivation = true ∧ truthy (mval env loc e) = true
    · rw [if_pos h2]
      have hn : ¬ (x = e ∧ NormalCond env loc (getGroup s (env e).group).fallback e) := by
        rintro ⟨-, -, hn⟩; exact hn h2
      simp [hn]
    · rw [if_neg h2]
      have hnc : NormalCond env loc (getGroup s (env e).group).fallback e := ⟨h1, h2⟩
      by_cases htog : truthy (mval env loc e) ≠ s.active e
      · rw [if_pos htog]
        by_cases hset : truthy (mval env loc e) = true ∧ (env e).disableActivation = false
        · rw [if_pos hset]
          rw [setActiveElement_active]
          rw [toggle_active]
          by_cases hxe : x = e
          · subst hxe; simp [hnc]
          · simp [hxe]
        · rw [if_neg hset]
          rw [toggle_active]
          by_cases hxe : x = e
          · subst hxe; simp [hnc]
          · simp [hxe]
      · rw [if_neg htog]
        have heq : truthy (mval env loc e) = s.active e := by
          by_contra hc; exact htog hc
        by_cases hset : truthy (mval env loc e) = true ∧ (env e).disableActivation = false
        · rw [if_pos hset]
          rw [setActiveElement_active]
          by_cases hxe : x = e
          · subst hxe; simp [hnc, heq]
          · simp [hxe]
        · rw [if_neg hset]
          by_cases hxe : x = e
          · subst hxe; simp [hnc, heq]
          · simp [hxe]

theorem mae_shape (env : Nat → El) (loc : Loc) (e : Nat) (s : RState) :
    groupsShape (maybeActivateElement env loc e s).2.1 = groupsShape s := by
  simp only [maybeActivateElement]
  by_cases h1 : pathTruthy (env e).path = false
      ∧ (getGroup s (env e).group).fallback ≠ some e ∧ (env e).disableActivation = false
  · rw [if_pos h1]
  · rw [if_neg h1]
    by_cases h2 : (env e).disableActivation = true ∧ truthy (mval env loc e) = true
    · rw [if_pos h2]
    · rw [if_neg h2]
      by_cases htog : truthy (mval env loc e) ≠ s.active e
      · rw [if_pos htog]
        by_cases hset : truthy (mval env loc e) = true ∧ (env e).disableActivation = false
        · rw [if_pos hset]
          have h3 := groupsShape_setActiveElement
            (toggleElementActive s e (truthy (mval env loc e))).1 (env e).group (some e)
          rw [h3]
          rfl
        · rw [if_neg hset]
          rfl
      · rw [if_neg htog]
        by_cases hset : truthy (mval env loc e) = true ∧ (env e).disableActivation = false
        · rw [if_pos hset]
          exact groupsShape_setActiveElement s (env e).group (some e)
        · rw [if_neg hset]

theorem mae_groups_of_not_set (env : Nat → El) (loc : Loc) (e : Nat) (s : RState)
    (h : matchedEnabled env loc e = false) :
    (maybeActivateElement env loc e s).2.1.groups = s.groups := by
  simp only [maybeActivateElement]
  by_cases h1 : pathTruthy (env e).path = false
      ∧ (getGroup s (env e).group).fallback ≠ some e ∧ (env e).disableActivation = false
  · rw [if_pos h1]
  · rw [if_neg h1]
    by_cases h2 : (env e).disableActivation = true ∧ truthy (mval env loc e) = true
    · rw [if_pos h2]
    · rw [if_neg h2]
      have hset : ¬ (truthy (mval env loc e) = true ∧ (env e).disableActivation = false) := by
        rintro ⟨ha, hb⟩
        rw [matchedEnabled, ha, hb] at h
        simp at h
      rw [if_neg hset]
      by_cases htog : truthy (mval env loc e) ≠ s.active e
      · rw [if_pos htog]
        rfl
      · rw [if_neg htog]

theorem mae_ae (env : Nat → El) (loc : Loc) (e : Nat) (s : RState) (g' : String) :
    (getGroup (maybeActivateElement env loc e s).2.1 g').activeElement =
      if g' = (env e).group ∧ (findGroup s.groups (env e).group).isSome = true
          ∧ matchedEnabled env loc e = true
      then some e else (getGroup s g').activeElement := by
  by_cases hme : matchedEnabled env loc e = true
  · simp only [maybeActivateElement]
    have h1 : ¬ (pathTruthy (env e).path = false
        ∧ (getGroup s (env e).group).fallback ≠ some e ∧ (env e).disableActivation = false) := by
      rintro ⟨hp, -, -⟩
      rw [matchedEnabled, truthy_mval_of_path_falsy env loc e hp] at hme
      simp at hme
    have hdis : (env e).disableActivation = false := by
      cases h : (env e).disableActivation
      · rfl
      · rw [matchedEnabled, h] at hme; simp at hme
    have htr : truthy (mval env loc e) = true := by
      cases h : truthy (mval env loc e)
      · rw [matchedEnabled, h] at hme; simp at hme
      · rfl
    have h2 : ¬ ((env e).disableActivation = true ∧ truthy (mval env loc e) = true) := by
      rintro ⟨ha, -⟩; rw [hdis] at ha; exact Bool.false_ne_true ha
    rw [if_neg h1, if_neg h2, if_pos ⟨htr, hdis⟩]
    have key : ∀ u : RState, u.groups = s.groups →
        (getGroup (setActiveElement u (env e).group (some e)) g').activeElement =
          if g' = (env e).group ∧ (findGroup s.groups (env e).group).isSome = true
              ∧ matchedEnabled env loc e = true
          then some e else (getGroup s g').activeElement := by
      intro u hu
      have hgg : ∀ gx, getGroup u gx = getGroup s gx := by
        intro gx; simp [getGroup, hu]
      rw [setActiveElement, getGroup_setGroup, hu]
      by_cases hcond : g' = (env e).group ∧ (findGroup s.groups (env e).group).isSome = true
      · rw [if_pos hcond, if_pos ⟨hcond.1, hcond.2, hme⟩]
      · rw [if_neg hcond, hgg]
        have hcond' : ¬ (g' = (env e).group
            ∧ (findGroup s.groups (env e).group).isSome = true
            ∧ matchedEnabled env loc e = true) := by
          rintro ⟨ha, hb, -⟩
          exact hcond ⟨ha, hb⟩
        rw [if_neg hcond']
    by_cases htog : truthy (mval env loc e) ≠ s.active e
    · rw [if_pos htog]
      exact key (toggleElementActive s e (truthy (mval env loc e))).1 rfl
    · rw [if_neg htog]
      exact key s rfl
  · have hme' : matchedEnabled env loc e = false := by
      cases h : matchedEnabled env loc e
      · rfl
      · exact absurd h hme
    have hgr := mae_groups_of_not_set env loc e s hme'
    have hcond' : ¬ (g' = (env e).group
        ∧ (findGroup s.groups (env e).group).isSome = true
        ∧ matchedEnabled env loc e = true) := by
      rintro ⟨-, -, hc⟩; exact hme hc
    rw [if_neg hcond']
    simp [getGroup, hgr]

theorem toggle_shape (u : RState) (f : Nat) (b : Bool) :
    groupsShape (toggleElementActive u f b).1 = groupsShape u := rfl

theorem toggle_getGroup (u : RState) (f : Nat) (b : Bool) (g : String) :
    getGroup (toggleElementActive u f b).1 g = getGroup u g := rfl

theorem evl_fst (env : Nat → El) (loc : Loc) (L : List Nat) :
    ∀ (s : RState) (one : Bool),
    (evalList env loc L s one).1 = (one || L.any (matchedEnabled env loc)) := by
  induction L with
  | nil =>
    intro s one
    simp [evalList]
  | cons e es ih =>
    intro s one
    simp only [evalList]
    rw [ih, mae_fst]
    simp [Bool.or_assoc]

theorem evl_shape (env : Nat → El) (loc : Loc) (L : List Nat) :
    ∀ (s : RState) (one : Bool),
    groupsShape (evalList env loc L s one).2.1 = groupsShape s := by
  induction L with
  | nil =>
    intro s one
    rfl
  | cons e es ih =>
    intro s one
    simp only [evalList]
    rw [ih, mae_shape]

theorem evl_active (env : Nat → El) (loc : Loc) (g : String) :
    ∀ (L : List Nat), (∀ e ∈ L, (env e).group = g) →
    ∀ (s : RState) (one : Bool) (x : Nat),
    (evalList env loc L s one).2.1.active x =
      if x ∈ L ∧ NormalCond env loc (getGroup s g).fallback x
      then truthy (mval env loc x) else s.active x := by
  intro L
  induction L with
  | nil =>
    intro hg s one x
    simp [evalList]
  | cons e es ih =>
    intro hg s one x
    simp only [evalList]
    have hge : (env e).group = g := hg e (List.mem_cons_self e es)
    have hfb1 : (getGroup (maybeActivateElement env loc e s).2.1 g).fallback
        = (getGroup s g).fallback :=
      (getGroup_shape_agree _ _ (mae_shape env loc e s) g).2
    rw [ih (fun e' he' => hg e' (List.mem_cons_of_mem e he')), hfb1]
    have hma := mae_active env loc e s x
    rw [hge] at hma
    rw [hma]
    by_cases hA : x ∈ es ∧ NormalCond env loc (getGroup s g).fallback x
    · have hc : x ∈ e :: es ∧ NormalCond env loc (getGroup s g).fallback x :=
        ⟨List.mem_cons_of_mem e hA.1, hA.2⟩
      rw [if_pos hA, if_pos hc]
    · rw [if_neg hA]
      by_cases hB : x = e ∧ NormalCond env loc (getGroup s g).fallback e
      · obtain ⟨hxe, hnc⟩ := hB
        subst hxe
        have hc : x ∈ x :: es ∧ NormalCond env loc (getGroup s g).fallback x :=
          ⟨List.mem_cons_self x es, hnc⟩
        rw [if_pos ⟨rfl, hnc⟩, if_pos hc]
      · rw [if_neg hB]
        have hc : ¬ (x ∈ e :: es ∧ NormalCond env loc (getGroup s g).fallback x) := by
          rintro ⟨hmem, hnc⟩
          rcases List.mem_cons.mp hmem with hxe | hxs
          · exact hB ⟨hxe, hxe ▸ hnc⟩
          · exact hA ⟨hxs, hnc⟩
        rw [if_neg hc]

theorem evl_ae (env : Nat → El) (loc : Loc) (g : String) :
    ∀ (L : List Nat), (∀ e ∈ L, (env e).group = g) →
    ∀ (s : RState) (one : Bool) (g' : String),
    (getGroup (evalList env loc L s one).2.1 g').activeElement =
      if g' = g ∧ (findGroup s.groups g).isSome = true
      then lastMatched env loc L (getGroup s g).activeElement
      else (getGroup s g').activeElement := by
  intro L
  induction L with
  | nil =>
    intro hg s one g'
    by_cases h : g' = g ∧ (findGroup s.groups g).isSome = true
    · rw [if_pos h, h.1]
      rfl
    · rw [if_neg h]
      rfl
  | cons e es ih =>
    intro hg s one g'
    simp only [evalList]
    have hge : (env e).group = g := hg e (List.mem_cons_self e es)
    have hshape := mae_shape env loc e s
    have hsome : (findGroup (maybeActivateElement env loc e s).2.1.groups g).isSome
        = (findGroup s.groups g).isSome := by
      have := findGroup_isSome_shape_agree (maybeActivateElement env loc e s).2.1 s hshape g
      exact this
    rw [ih (fun e' he' => hg e' (List.mem_cons_of_mem e he')), hsome]
    have hma := mae_ae env loc e s
    by_cases hx : (findGroup s.groups g).isSome = true
    · by_cases hgg : g' = g
      · subst hgg
        rw [if_pos ⟨rfl, hx⟩, if_pos ⟨rfl, hx⟩]
        have hmag := hma g'
        rw [hge] at hmag
        rw [hmag]
        by_cases hme : matchedEnabled env loc e = true
        · rw [if_pos ⟨rfl, hx, hme⟩]
          simp [lastMatched, hme]
        · have hc : ¬ (g' = g' ∧ (findGroup s.groups g').isSome = true
              ∧ matchedEnabled env loc e = true) := by
            rintro ⟨-, -, hk⟩; exact hme hk
          rw [if_neg hc]
          have hmeF : matchedEnabled env loc e = false := by
            cases hk : matchedEnabled env loc e
            · rfl
            · exact absurd hk hme
          simp [lastMatched, hmeF]
      · rw [if_neg (fun hh => hgg hh.1), if_neg (fun hh => hgg hh.1)]
        have hmag := hma g'
        rw [hge] at hmag
        rw [hmag, if_neg (fun hh => hgg hh.1)]
    · rw [if_neg (fun hh => hx hh.2), if_neg (fun hh => hx hh.2)]
      have hmag := hma g'
      rw [hge] at hmag
      rw [hmag, if_neg (fun hh => hx hh.2.1)]

theorem setActiveElement_getGroup_self (s : RState) (g : String) (v : Option Nat)
    (hex : (findGroup s.groups g).isSome = true) :
    getGroup (setActiveElement s g v) g = { getGroup s g with activeElement := v } := by
  rw [setActiveElement, getGroup_setGroup, if_pos ⟨rfl, hex⟩]

theorem rog_shape (env : Nat → El) (loc : Loc) (g : String) (s : RState) :
    groupsShape (reconcileOneGroup env loc g s).1 = groupsShape s := by
  simp only [reconcileOneGroup]
  cases hfb : (getGroup (evalList env loc (getGroup s g).list
      (setActiveElement s g none) false).2.1 g).fallback with
  | none =>
    rw [evl_shape, groupsShape_setActiveElement]
  | some f =>
    rw [toggle_shape, evl_shape, groupsShape_setActiveElement]

theorem rog_loop_fallback (env : Nat → El) (loc : Loc) (g : String) (s : RState) :
    (getGroup (evalList env loc (getGroup s g).list
        (setActiveElement s g none) false).2.1 g).fallback = (getGroup s g).fallback := by
  have h1 := (getGroup_shape_agree _ _
    (evl_shape env loc (getGroup s g).list (setActiveElement s g none) false) g).2
  have h2 := (getGroup_shape_agree _ _ (groupsShape_setActiveElement s g none) g).2
  rw [h1, h2]

theorem rog_active (env : Nat → El) (loc : Loc) (g : String) (s : RState)
    (hg : ∀ e ∈ (getGroup s g).list, (env e).group = g) (x : Nat) :
    (reconcileOneGroup env loc g s).1.active x =
      if (getGroup s g).fallback = some x
      then !((getGroup s g).list.any (matchedEnabled env loc))
      else if x ∈ (getGroup s g).list ∧ NormalCond env loc ((getGroup s g).fallback) x
      then truthy (mval env loc x)
      else s.active x := by
  have hfb0 : (getGroup (setActiveElement s g none) g).fallback = (getGroup s g).fallback :=
    (getGroup_shape_agree _ _ (groupsShape_setActiveElement s g none) g).2
  have hloop : ∀ y, (evalList env loc (getGroup s g).list
      (setActiveElement s g none) false).2.1.active y =
      if y ∈ (getGroup s g).list ∧ NormalCond env loc ((getGroup s g).fallback) y
      then truthy (mval env loc y) else s.active y := by
    intro y
    rw [evl_active env loc g (getGroup s g).list hg, hfb0]
    rfl
  have hone : (evalList env loc (getGroup s g).list
      (setActiveElement s g none) false).1 = (getGroup s g).list.any (matchedEnabled env loc) := by
    rw [evl_fst]
    simp
  simp only [reconcileOneGroup]
  rw [rog_loop_fallback]
  cases hfb : (getGroup s g).fallback with
  | none =>
    simp only []
    rw [hloop x, hfb]
    simp
  | some f =>
    simp only []
    rw [toggle_active, hone]
    by_cases hxf : x = f
    · subst hxf
      rw [if_pos rfl, if_pos rfl]
    · rw [if_neg hxf]
      have hne : ¬ (some f = some x) := fun hh => hxf (Option.some.inj hh).symm
      rw [if_neg hne, hloop x, hfb]

theorem rog_ae (env : Nat → El) (loc : Loc) (g : String) (s : RState)
    (hg : ∀ e ∈ (getGroup s g).list, (env e).group = g)
    (hex : (findGroup s.groups g).isSome = true) (g' : String) :
    (getGroup (reconcileOneGroup env loc g s).1 g').activeElement =
      if g' = g then lastMatched env loc (getGroup s g).list none
      else (getGroup s g').activeElement := by
  have hsome0 : (findGroup (setActiveElement s g none).groups g).isSome
      = (findGroup s.groups g).isSome :=
    findGroup_isSome_shape_agree _ _ (groupsShape_setActiveElement s g none) g
  have hae0 : (getGroup (setActiveElement s g none) g).activeElement = none := by
    rw [setActiveElement_getGroup_self s g none hex]
  have hloopae : ∀ gx, (getGroup (evalList env loc (getGroup s g).list
      (setActiveElement s g none) false).2.1 gx).activeElement =
      if gx = g ∧ (findGroup s.groups g).isSome = true
      then lastMatched env loc (getGroup s g).list none
      else (getGroup (setActiveElement s g none) gx).activeElement := by
    intro gx
    rw [evl_ae env loc g (getGroup s g).list hg, hsome0, hae0]
  simp only [reconcileOneGroup]
  rw [rog_loop_fallback]
  cases hfb : (getGroup s g).fallback with
  | none =>
    simp only []
    rw [hloopae g']
    by_cases hgg : g' = g
    · subst hgg
      rw [if_pos ⟨rfl, hex⟩, if_pos rfl]
    · rw [if_neg (fun hh => hgg hh.1), if_neg hgg]
      rw [setActiveElement, getGroup_setGroup, if_neg (fun hh => hgg hh.1)]
  | some f =>
    simp only []
    rw [toggle_getGroup, hloopae g']
    by_cases hgg : g' = g
    · subst hgg
      rw [if_pos ⟨rfl, hex⟩, if_pos rfl]
    · rw [if_neg (fun hh => hgg hh.1), if_neg hgg]
      rw [setActiveElement, getGroup_setGroup, if_neg (fun hh => hgg hh.1)]

theorem lastMatched_mem (env : Nat → El) (loc : Loc) :
    ∀ (L : List Nat) (init : Option Nat) (a : Nat),
    lastMatched env loc L init = some a → a ∈ L ∨ init = some a := by
  intro L
  induction L with
  | nil =>
    intro init a h
    right
    exact h
  | cons e es ih =>
    intro init a h
    have h' : lastMatched env loc es
        (if matchedEnabled env loc e = true then some e else init) = some a := by
      simpa [lastMatched] using h
    rcases ih _ a h' with hmem | hinit
    · exact Or.inl (List.mem_cons_of_mem e hmem)
    · by_cases hme : matchedEnabled env loc e = true
      · rw [if_pos hme] at hinit
        exact Or.inl (by rw [← Option.some.inj hinit]; exact List.mem_cons_self e es)
      · rw [if_neg hme] at hinit
        exact Or.inr hinit

theorem rog_events_fallback (env : Nat → El) (loc : Loc) (g : String) (s : RState) (f : Nat)
    (hfb : (getGroup s g).fallback = some f)
    (hnone : (getGroup s g).list.any (matchedEnabled env loc) = false) :
    ∃ pre, (reconcileOneGroup env loc g s).2 =
      pre ++ Event.routeActivated f :: hookEvents (env f) f [] := by
  have hone : (evalList env loc (getGroup s g).list (setActiveElement s g none) false).1
      = false := by
    rw [evl_fst]
    simp [hnone]
  simp only [reconcileOneGroup]
  rw [rog_loop_fallback, hfb]
  simp only [hone]
  refine ⟨(evalList env loc (getGroup s g).list (setActiveElement s g none) false).2.2, ?_⟩
  simp [toggleElementActive]

/-- Claim C3: after the per-group body of a reconciliation pass runs on
a non-empty group with a fallback, the recorded active element, when
set, is a single member of the group's member list; the fallback's
active flag is set exactly when no member counted as matched; and when
no member matched, the pass ends by dispatching the activation of the
fallback and sequentially awaiting its pre-activation hook then its
activation hook with an empty parameter mapping. -/
theorem reconcileGroup_single_active_fallback_iff (env : Nat → El) (loc : Loc) (g : String)
    (f : Nat) (s : RState)
    (hg : ∀ e ∈ (getGroup s g).list, (env e).group = g)
    (hne : (getGroup s g).list ≠ [])
    (hfb : (getGroup s g).fallback = some f) :
    (∀ a, (getGroup (reconcileOneGroup env loc g s).1 g).activeElement = some a →
        a ∈ (getGroup s g).list)
  ∧ ((reconcileOneGroup env loc g s).1.active f
      = !((getGroup s g).list.any (matchedEnabled env loc)))
  ∧ ((getGroup s g).list.any (matchedEnabled env loc) = false →
      ∃ pre, (reconcileOneGroup env loc g s).2 =
        pre ++ Event.routeActivated f :: hookEvents (env f) f []) := by
  have hex := list_ne_nil_findGroup_isSome s g hne
  refine ⟨?_, ?_, ?_⟩
  · intro a ha
    rw [rog_ae env loc g s hg hex g, if_pos rfl] at ha
    rcases lastMatched_mem env loc _ none a ha with h | h
    · exact h
    · exact absurd h (by simp)
  · rw [rog_active env loc g s hg f, hfb, if_pos rfl]
  · intro hnone
    exact rog_events_fallback env loc g s f hfb hnone

/-- Claim C3 witness: group default with members 0, 1 and the fallback
2, on the location /zz that no member matches. -/
theorem reconcileGroup_single_active_fallback_iff_witness :
    ((∀ e ∈ (getGroup stF "default").list, (envA e).group = "default")
      ∧ (getGroup stF "default").list ≠ []
      ∧ (getGroup stF "default").fallback = some 2)
  ∧ ((∀ a, (getGroup (reconcileOneGroup envA ⟨"/zz", ""⟩ "default" stF).1
        "default").activeElement = some a → a ∈ (getGroup stF "default").list)
      ∧ ((reconcileOneGroup envA ⟨"/zz", ""⟩ "default" stF).1.active 2
          = !((getGroup stF "default").list.any (matchedEnabled envA ⟨"/zz", ""⟩)))
      ∧ ((getGroup stF "default").list.any (matchedEnabled envA ⟨"/zz", ""⟩) = false →
          ∃ pre, (reconcileOneGroup envA ⟨"/zz", ""⟩ "default" stF).2 =
            pre ++ Event.routeActivated 2 :: hookEvents (envA 2) 2 [])) :=
  ⟨⟨by decide, by decide, by decide⟩,
   reconcileGroup_single_active_fallback_iff envA ⟨"/zz", ""⟩ "default" 2 stF
     (by decide) (by decide) (by decide)⟩

/-- Claim C1 (amended): the group loop of activateCurrentPath visits
the groups in creation order, but a group whose member list is empty
makes the whole pass return at once: nothing is done for that group
(its fallback is not activated) and no later group is reconciled.  Only
when every group it reaches has members does the pass reconcile every
group, in creation order, with no early return. -/
theorem processGroups_abort_rules (env : Nat → El) (loc : Loc) :
    (∀ (s : RState) (g : String) (gs : List String), (getGroup s g).list = [] →
      processGroups env loc (g :: gs) s = (s, [], true))
  ∧ (∀ (K : List String) (s : RState), (∀ g ∈ K, (getGroup s g).list ≠ []) →
      processGroups env loc K s =
        ((reconcileFold env loc K s).1, (reconcileFold env loc K s).2, false)) := by
  constructor
  · intro s g gs h
    simp [processGroups, h]
  · intro K
    induction K with
    | nil =>
      intro s h
      simp [processGroups, reconcileFold]
    | cons g gs ih =>
      intro s h
      have hne : (getGroup s g).list ≠ [] := h g (List.mem_cons_self g gs)
      simp only [processGroups, reconcileFold]
      rw [if_neg hne]
      have hpres : ∀ g' ∈ gs, (getGroup (reconcileOneGroup env loc g s).1 g').list ≠ [] := by
        intro g' hm
        have hsh := (getGroup_shape_agree _ _ (rog_shape env loc g s) g').1
        rw [hsh]
        exact h g' (List.mem_cons_of_mem g hm)
      rw [ih _ hpres]

/-- Claim C1 witness: the first rule at a state whose first group is
empty, the second at a state whose only group has members. -/
theorem processGroups_abort_rules_witness :
    processGroups envA locA ["default", "g1"] stC1 = (stC1, [], true)
  ∧ processGroups envA locA ["default"] stA =
      ((reconcileFold envA locA ["default"] stA).1,
        (reconcileFold envA locA ["default"] stA).2, false) :=
  ⟨(processGroups_abort_rules envA locA).1 stC1 "default" ["g1"] (by decide),
   (processGroups_abort_rules envA locA).2 ["default"] stA (by decide)⟩

/-- Claim C1 counterexample: with the default group empty and a later
group g1 holding the matching enabled element 5, the full pass does
nothing at all: no events, element 5 stays inactive and g1 keeps no
active element, because the early return of line 183 abandons the whole
loop instead of skipping one group. -/
theorem activateCurrentPath_empty_group_aborts :
    matchedEnabled envA locA 5 = true
  ∧ (activateCurrentPath envA locA stC1).2 = []
  ∧ (activateCurrentPath envA locA stC1).1.active 5 = false
  ∧ getGroup (activateCurrentPath envA locA stC1).1 "g1" = ⟨[5], none, none⟩ := by
  decide

theorem obs_refl (s : RState) : ObsEq s s :=
  ⟨fun _ => rfl, fun _ => rfl, rfl⟩

theorem obs_trans {s t u : RState} (h1 : ObsEq s t) (h2 : ObsEq t u) : ObsEq s u :=
  ⟨fun x => (h1.1 x).trans (h2.1 x), fun g => (h1.2.1 g).trans (h2.2.1 g),
   h1.2.2.trans h2.2.2⟩

theorem findGroup_mem : ∀ (l : List (String × GroupState)) (g : String) (gs : GroupState),
    findGroup l g = some gs → (g, gs) ∈ l := by
  intro l
  induction l with
  | nil => intro g gs h; simp [findGroup] at h
  | cons p ps ih =>
    intro g gs h
    by_cases hp : p.1 = g
    · rw [findGroup, if_pos hp] at h
      obtain ⟨p1, p2⟩ := p
      have h2 : p2 = gs := Option.some.inj h
      have h1 : p1 = g := hp
      subst h1
      subst h2
      exact List.mem_cons_self _ _
    · rw [findGroup, if_neg hp] at h
      exact List.mem_cons_of_mem p (ih g gs h)

theorem WF_HG (env : Nat → El) (s : RState) (hwf : WF env s) (g : String) : HG env s g := by
  cases hf : findGroup s.groups g with
  | none =>
    constructor
    · intro e he
      rw [getGroup, hf] at he
      simp [emptyGroup] at he
    · intro f hfb
      rw [getGroup, hf] at hfb
      simp [emptyGroup] at hfb
  | some gs =>
    have hmem : (g, gs) ∈ s.groups := findGroup_mem s.groups g gs hf
    have hp := hwf.2 (g, gs) hmem
    have hgg : getGroup s g = gs := by rw [getGroup, hf]; rfl
    constructor
    · intro e he
      rw [hgg] at he
      exact hp.1 e he
    · intro f hfb
      rw [hgg] at hfb
      have := hp.2
      rw [hfb] at this
      simpa [fbOK] using this

theorem HG_shape (env : Nat → El) {s t : RState} (h : groupsShape s = groupsShape t)
    (g : String) (hg : HG env s g) : HG env t g := by
  obtain ⟨hl, hf⟩ := getGroup_shape_agree s t h g
  constructor
  · intro e he
    exact hg.1 e (hl ▸ he)
  · intro f hfb
    exact hg.2 f (hf ▸ hfb)

theorem KWF_shape (env : Nat → El) {s t : RState} (h : groupsShape s = groupsShape t)
    (K : List String) (hk : KWF env s K) : KWF env t K :=
  fun g hm => HG_shape env h g (hk g hm)

theorem FixG_obs (env : Nat → El) (loc : Loc) {t w : RState} (h : ObsEq t w) (g : String)
    (hf : FixG env loc w g) : FixG env loc t g := by
  have hgg : getGroup t g = getGroup w g := h.2.1 g
  refine ⟨?_, ?_, ?_⟩
  · rw [hgg]; exact hf.1
  · intro x hfb
    rw [hgg] at hfb ⊢
    rw [h.1 x]
    exact hf.2.1 x hfb
  · intro x hfb hmem hnc
    rw [hgg] at hfb hmem hnc
    rw [h.1 x]
    exact hf.2.2 x hfb hmem hnc

theorem groupStateExt {a b : GroupState} (h1 : a.list = b.list) (h2 : a.fallback = b.fallback)
    (h3 : a.activeElement = b.activeElement) : a = b := by
  cases a; cases b
  simp_all

theorem rog_getGroup_other (env : Nat → El) (loc : Loc) (g : String) (s : RState)
    (hg : ∀ e ∈ (getGroup s g).list, (env e).group = g)
    (hex : (findGroup s.groups g).isSome = true)
    (g' : String) (hne : g' ≠ g) :
    getGroup (reconcileOneGroup env loc g s).1 g' = getGroup s g' := by
  obtain ⟨hl, hf⟩ := getGroup_shape_agree _ _ (rog_shape env loc g s) g'
  have hae := rog_ae env loc g s hg hex g'
  rw [if_neg hne] at hae
  exact groupStateExt hl hf hae

theorem rog_getGroup_self (env : Nat → El) (loc : Loc) (g : String) (s : RState)
    (hg : ∀ e ∈ (getGroup s g).list, (env e).group = g)
    (hex : (findGroup s.groups g).isSome = true) :
    getGroup (reconcileOneGroup env loc g s).1 g =
      { getGroup s g with activeElement := lastMatched env loc (getGroup s g).list none } := by
  obtain ⟨hl, hf⟩ := getGroup_shape_agree _ _ (rog_shape env loc g s) g
  have hae := rog_ae env loc g s hg hex g
  rw [if_pos rfl] at hae
  exact groupStateExt hl hf hae

theorem rog_makes_fix (env : Nat → El) (loc : Loc) (g : String) (s : RState)
    (hg : ∀ e ∈ (getGroup s g).list, (env e).group = g)
    (hex : (findGroup s.groups g).isSome = true) :
    FixG env loc (reconcileOneGroup env loc g s).1 g := by
  have hself := rog_getGroup_self env loc g s hg hex
  refine ⟨?_, ?_, ?_⟩
  · rw [hself]
  · intro x hfb
    rw [hself] at hfb ⊢
    rw [rog_active env loc g s hg x, if_pos hfb]
  · intro x hfb hmem hnc
    rw [hself] at hfb hmem hnc
    rw [rog_active env loc g s hg x, if_neg hfb, if_pos ⟨hmem, hnc⟩]

theorem rog_fix_noop (env : Nat → El) (loc : Loc) (g : String) (t : RState)
    (hg : ∀ e ∈ (getGroup t g).list, (env e).group = g)
    (hex : (findGroup t.groups g).isSome = true)
    (hfix : FixG env loc t g) :
    ObsEq (reconcileOneGroup env loc g t).1 t := by
  refine ⟨?_, ?_, rog_shape env loc g t⟩
  · intro x
    rw [rog_active env loc g t hg x]
    by_cases h1 : (getGroup t g).fallback = some x
    · rw [if_pos h1, hfix.2.1 x h1]
    · rw [if_neg h1]
      by_cases h2 : x ∈ (getGroup t g).list ∧ NormalCond env loc ((getGroup t g).fallback) x
      · rw [if_pos h2, hfix.2.2 x h1 h2.1 h2.2]
      · rw [if_neg h2]
  · intro g'
    by_cases hgg : g' = g
    · subst hgg
      rw [rog_getGroup_self env loc g' t hg hex, ← hfix.1]
    · exact rog_getGroup_other env loc g t hg hex g' hgg

theorem rog_active_outside (env : Nat → El) (loc : Loc) (g : String) (s : RState)
    (hg : HG env s g) (x : Nat) (hx : (env x).group ≠ g) :
    (reconcileOneGroup env loc g s).1.active x = s.active x := by
  rw [rog_active env loc g s hg.1 x]
  have h1 : (getGroup s g).fallback ≠ some x := fun hh => hx (hg.2 x hh)
  rw [if_neg h1]
  have h2 : ¬ (x ∈ (getGroup s g).list ∧ NormalCond env loc ((getGroup s g).fallback) x) := by
    rintro ⟨hm, -⟩
    exact hx (hg.1 x hm)
  rw [if_neg h2]

theorem pg_shape (env : Nat → El) (loc : Loc) : ∀ (K : List String) (s : RState),
    groupsShape (processGroups env loc K s).1 = groupsShape s := by
  intro K
  induction K with
  | nil => intro s; rfl
  | cons g gs ih =>
    intro s
    by_cases h : (getGroup s g).list = []
    · simp [processGroups, h]
    · simp only [processGroups]
      rw [if_neg h]
      exact (ih _).trans (rog_shape env loc g s)

theorem pg_active_outside (env : Nat → El) (loc : Loc) : ∀ (K : List String) (s : RState),
    KWF env s K → ∀ x, (env x).group ∉ K →
    (processGroups env loc K s).1.active x = s.active x := by
  intro K
  induction K with
  | nil => intro s _ x _; rfl
  | cons g gs ih =>
    intro s hk x hx
    by_cases h : (getGroup s g).list = []
    · simp [processGroups, h]
    · simp only [processGroups]
      rw [if_neg h]
      have hgx : (env x).group ≠ g := fun hh => hx (hh ▸ List.mem_cons_self g gs)
      have h1 := rog_active_outside env loc g s (hk g (List.mem_cons_self g gs)) x hgx
      have hk' : KWF env (reconcileOneGroup env loc g s).1 gs :=
        KWF_shape env (rog_shape env loc g s).symm gs
          (fun gx hgx2 => hk gx (List.mem_cons_of_mem g hgx2))
      rw [ih _ hk' x (fun hh => hx (List.mem_cons_of_mem g hh)), h1]

theorem pg_getGroup_other (env : Nat → El) (loc : Loc) : ∀ (K : List String) (s : RState),
    KWF env s K → ∀ g', g' ∉ K →
    getGroup (processGroups env loc K s).1 g' = getGroup s g' := by
  intro K
  induction K with
  | nil => intro s _ g' _; rfl
  | cons g gs ih =>
    intro s hk g' hx
    by_cases h : (getGroup s g).list = []
    · simp [processGroups, h]
    · simp only [processGroups]
      rw [if_neg h]
      have hne : g' ≠ g := fun hh => hx (hh ▸ List.mem_cons_self g gs)
      have hex := list_ne_nil_findGroup_isSome s g h
      have h1 := rog_getGroup_other env loc g s (hk g (List.mem_cons_self g gs)).1 hex g' hne
      have hk' : KWF env (reconcileOneGroup env loc g s).1 gs :=
        KWF_shape env (rog_shape env loc g s).symm gs
          (fun gx hgx2 => hk gx (List.mem_cons_of_mem g hgx2))
      rw [ih _ hk' g' (fun hh => hx (List.mem_cons_of_mem g hh)), h1]

theorem pg_idem (env : Nat → El) (loc : Loc) : ∀ (K : List String), K.Nodup →
    ∀ (s t : RState), KWF env s K → ObsEq t (processGroups env loc K s).1 →
    ObsEq (processGroups env loc K t).1 (processGroups env loc K s).1 := by
  intro K
  induction K with
  | nil =>
    intro _ s t _ hobs
    simpa [processGroups] using hobs
  | cons g K' ih =>
    intro hnd s t hk hobs
    by_cases hemp : (getGroup s g).list = []
    · have hs : processGroups env loc (g :: K') s = (s, [], true) := by
        simp [processGroups, hemp]
      rw [hs] at hobs ⊢
      have hte : (getGroup t g).list = [] := by
        rw [(getGroup_shape_agree t s hobs.2.2 g).1, hemp]
      have ht : processGroups env loc (g :: K') t = (t, [], true) := by
        simp [processGroups, hte]
      rw [ht]
      exact hobs
    · have hex := list_ne_nil_findGroup_isSome s g hemp
      have hgs : HG env s g := hk g (List.mem_cons_self g K')
      have hkU : KWF env (reconcileOneGroup env loc g s).1 K' :=
        KWF_shape env (rog_shape env loc g s).symm K'
          (fun gx hgx => hk gx (List.mem_cons_of_mem g hgx))
      have hspg : (processGroups env loc (g :: K') s).1
          = (processGroups env loc K' (reconcileOneGroup env loc g s).1).1 := by
        simp [processGroups, hemp]
      rw [hspg] at hobs ⊢
      have hgK : g ∉ K' := (List.nodup_cons.mp hnd).1
      have hfixu : FixG env loc (reconcileOneGroup env loc g s).1 g :=
        rog_makes_fix env loc g s hgs.1 hex
      have hshape_su : groupsShape (reconcileOneGroup env loc g s).1 = groupsShape s :=
        rog_shape env loc g s
      have hgu : HG env (reconcileOneGroup env loc g s).1 g := HG_shape env hshape_su.symm g hgs
      have hgg_wu : getGroup (processGroups env loc K' (reconcileOneGroup env loc g s).1).1 g
          = getGroup (reconcileOneGroup env loc g s).1 g :=
        pg_getGroup_other env loc K' (reconcileOneGroup env loc g s).1 hkU g hgK
      have hact_wu : ∀ x, (env x).group = g →
          (processGroups env loc K' (reconcileOneGroup env loc g s).1).1.active x
            = (reconcileOneGroup env loc g s).1.active x := by
        intro x hxg
        exact pg_active_outside env loc K' (reconcileOneGroup env loc g s).1 hkU x
          (fun hmem => hgK (hxg ▸ hmem))
      have hfixw : FixG env loc (processGroups env loc K' (reconcileOneGroup env loc g s).1).1 g := by
        refine ⟨?_, ?_, ?_⟩
        · rw [hgg_wu]
          exact hfixu.1
        · intro x hfb
          rw [hgg_wu] at hfb ⊢
          have hxg : (env x).group = g := hgu.2 x hfb
          rw [hact_wu x hxg]
          exact hfixu.2.1 x hfb
        · intro x hfb hmem hnc
          rw [hgg_wu] at hfb hmem hnc
          have hxg : (env x).group = g := hgu.1 x hmem
          rw [hact_wu x hxg]
          exact hfixu.2.2 x hfb hmem hnc
      have hfixt : FixG env loc t g := FixG_obs env loc hobs g hfixw
      have hlt : (getGroup t g).list = (getGroup s g).list := by
        have h1 := (getGroup_shape_agree t
          (processGroups env loc K' (reconcileOneGroup env loc g s).1).1 hobs.2.2 g).1
        have h2 := (getGroup_shape_agree
          (processGroups env loc K' (reconcileOneGroup env loc g s).1).1
          (reconcileOneGroup env loc g s).1
          (pg_shape env loc K' (reconcileOneGroup env loc g s).1) g).1
        have h3 := (getGroup_shape_agree (reconcileOneGroup env loc g s).1 s hshape_su g).1
        rw [h1, h2, h3]
      have htemp : (getGroup t g).list ≠ [] := by
        rw [hlt]
        exact hemp
      have hext := list_ne_nil_findGroup_isSome t g htemp
      have hgt : HG env t g := by
        have hsh : groupsShape s = groupsShape t := by
          calc groupsShape s
              = groupsShape (reconcileOneGroup env loc g s).1 := hshape_su.symm
            _ = groupsShape (processGroups env loc K' (reconcileOneGroup env loc g s).1).1 :=
                (pg_shape env loc K' (reconcileOneGroup env loc g s).1).symm
            _ = groupsShape t := hobs.2.2.symm
        exact HG_shape env hsh g hgs
      have hvt : ObsEq (reconcileOneGroup env loc g t).1 t :=
        rog_fix_noop env loc g t hgt.1 hext hfixt
      have hvw : ObsEq (reconcileOneGroup env loc g t).1
          (processGroups env loc K' (reconcileOneGroup env loc g s).1).1 :=
        obs_trans hvt hobs
      have hres := ih (List.nodup_cons.mp hnd).2 (reconcileOneGroup env loc g s).1
        (reconcileOneGroup env loc g t).1 hkU hvw
      have htpg : (processGroups env loc (g :: K') t).1
          = (processGroups env loc K' (reconcileOneGroup env loc g t).1).1 := by
        simp [processGroups, htemp]
      rw [htpg]
      exact hres

/-- Claim C2 (amended): on a well-formed state, running the full
reconciliation pass twice with no location change leaves every
component's active flag and every group's record (members, fallback and
active-element pointer) unchanged after the second run.  The clause of
the claim about hooks does not hold: because the pass resets the
active-element record before re-evaluating the members (line 185), the
second run re-awaits the pre-activation and activation hooks of each
matching enabled member and of a still-active fallback, not only on
transitions into the active state or in the activation-disabled detour. -/
theorem reconcileAll_state_idempotent (env : Nat → El) (loc : Loc) (s : RState)
    (hwf : WF env s) :
    ObsEq (activateCurrentPath env loc (activateCurrentPath env loc s).1).1
      (activateCurrentPath env loc s).1 := by
  have hkwf : KWF env s (s.groups.map Prod.fst) := fun g _ => WF_HG env s hwf g
  have hsh : groupsShape (activateCurrentPath env loc s).1 = groupsShape s :=
    pg_shape env loc (s.groups.map Prod.fst) s
  have hkeys : (activateCurrentPath env loc s).1.groups.map Prod.fst
      = s.groups.map Prod.fst := keys_shape_agree _ _ hsh
  show ObsEq (processGroups env loc ((activateCurrentPath env loc s).1.groups.map Prod.fst)
      (activateCurrentPath env loc s).1).1 (activateCurrentPath env loc s).1
  rw [hkeys]
  exact pg_idem env loc (s.groups.map Prod.fst) hwf.1 s (activateCurrentPath env loc s).1
    hkwf (obs_refl _)

/-- Claim C2 witness: the idempotence of the state on the concrete
well-formed state with members 0, 1, 3, 4 in the default group. -/
theorem reconcileAll_state_idempotent_witness :
    WF envA stA
  ∧ ObsEq (activateCurrentPath envA locA (activateCurrentPath envA locA stA).1).1
      (activateCurrentPath envA locA stA).1 :=
  ⟨by decide, reconcileAll_state_idempotent envA locA stA (by decide)⟩

/-- Claim C2 counterexample: the second identical pass still awaits the
pre-activation and activation hooks of the matching enabled element 0
(which is not in the activation-disabled detour and does not transition
into the active state, its flag already being set), because line 185
reset the group's active element before the member loop re-ran. -/
theorem reconcileAll_rehooks :
    (activateCurrentPath envA locA (activateCurrentPath envA locA stB).1).2
      = [Event.preHook 0 [], Event.hook 0 []]
  ∧ (envA 0).disableActivation = false
  ∧ (activateCurrentPath envA locA stB).1.active 0 = true := by
  decide

theorem pg_inv (env : Nat → El) (loc : Loc) : ∀ (K : List String) (s : RState),
    KWF env s K → Inv s → Inv (processGroups env loc K s).1 := by
  intro K
  induction K with
  | nil => intro s _ hinv; exact hinv
  | cons g gs ih =>
    intro s hk hinv
    by_cases h : (getGroup s g).list = []
    · simpa [processGroups, h] using hinv
    · simp only [processGroups]
      rw [if_neg h]
      have hex := list_ne_nil_findGroup_isSome s g h
      have hgs := hk g (List.mem_cons_self g gs)
      have hinvU : Inv (reconcileOneGroup env loc g s).1 := by
        intro g' a ha
        have hls := (getGroup_shape_agree _ _ (rog_shape env loc g s) g').1
        rw [hls]
        rw [rog_ae env loc g s hgs.1 hex g'] at ha
        by_cases hgg : g' = g
        · rw [if_pos hgg] at ha
          rcases lastMatched_mem env loc _ none a ha with hmem | hnone
          · rw [hgg]
            exact hmem
          · exact absurd hnone (by simp)
        · rw [if_neg hgg] at ha
          exact hinv g' a ha
      have hk' : KWF env (reconcileOneGroup env loc g s).1 gs :=
        KWF_shape env (rog_shape env loc g s).symm gs
          (fun gx hgx => hk gx (List.mem_cons_of_mem g hgx))
      exact ih _ hk' hinvU

theorem acp_inv (env : Nat → El) (loc : Loc) (s : RState) (hwf : WF env s) (hinv : Inv s) :
    Inv (activateCurrentPath env loc s).1 :=
  pg_inv env loc (s.groups.map Prod.fst) s (fun g _ => WF_HG env s hwf g) hinv

theorem WF_shape (env : Nat → El) {s t : RState} (h : groupsShape s = groupsShape t)
    (hwf : WF env s) : WF env t := by
  constructor
  · rw [← keys_shape_agree s t h]
    exact hwf.1
  · intro p hp
    have hq : entryShape p ∈ groupsShape t := List.mem_map_of_mem entryShape hp
    rw [← h] at hq
    obtain ⟨q, hq2, hqe⟩ := List.mem_map.mp hq
    have h1 : q.1 = p.1 := congrArg (fun z : String × List Nat × Option Nat => z.1) hqe
    have h2 : q.2.list = p.2.list :=
      congrArg (fun z : String × List Nat × Option Nat => z.2.1) hqe
    have h3 : q.2.fallback = p.2.fallback :=
      congrArg (fun z : String × List Nat × Option Nat => z.2.2) hqe
    have hcond := hwf.2 q hq2
    constructor
    · intro x hx
      rw [← h1]
      exact hcond.1 x (h2 ▸ hx)
    · rw [← h1, ← h3]
      exact hcond.2

theorem acp_wf (env : Nat → El) (loc : Loc) (s : RState) (hwf : WF env s) :
    WF env (activateCurrentPath env loc s).1 :=
  WF_shape env (pg_shape env loc (s.groups.map Prod.fst) s).symm hwf

theorem findGroup_append_single (l : List (String × GroupState)) (g g' : String)
    (gs : GroupState) :
    findGroup (l ++ [(g, gs)]) g' =
      match findGroup l g' with
      | some r => some r
      | none => if g = g' then some gs else none := by
  induction l with
  | nil => simp [findGroup]
  | cons p ps ih =>
    by_cases hp : p.1 = g'
    · simp [findGroup, hp]
    · simp only [List.cons_append, findGroup, if_neg hp]
      exact ih

theorem findGroup_none_not_key : ∀ (l : List (String × GroupState)) (g : String),
    findGroup l g = none → g ∉ l.map Prod.fst := by
  intro l
  induction l with
  | nil => intro g _; simp
  | cons p ps ih =>
    intro g h
    by_cases hp : p.1 = g
    · rw [findGroup, if_pos hp] at h
      exact absurd h (by simp)
    · rw [findGroup, if_neg hp] at h
      simp only [List.map_cons, List.mem_cons]
      rintro (hk | hk)
      · exact hp hk.symm
      · exact ih g h hk

theorem WF_ensureGroup (env : Nat → El) (s : RState) (g : String) (hwf : WF env s) :
    WF env (ensureGroup s g) := by
  by_cases h : (findGroup s.groups g).isSome
  · rw [ensureGroup, if_pos h]
    exact hwf
  · rw [ensureGroup, if_neg h]
    have hnone : findGroup s.groups g = none := by
      cases hf : findGroup s.groups g
      · rfl
      · rw [hf] at h
        exact absurd rfl h
    constructor
    · simp only [List.map_append, List.map_cons, List.map_nil]
      rw [List.nodup_append]
      refine ⟨hwf.1, List.nodup_singleton g, ?_⟩
      intro a ha hb
      simp at hb
      rw [hb] at ha
      exact findGroup_none_not_key s.groups g hnone ha
    · intro p hp
      rcases List.mem_append.mp hp with hmem | hmem
      · exact hwf.2 p hmem
      · simp at hmem
        rw [hmem]
        constructor
        · intro x hx
          simp [emptyGroup] at hx
        · simp [fbOK, emptyGroup]

theorem Inv_ensureGroup (s : RState) (g : String) (hinv : Inv s) : Inv (ensureGroup s g) := by
  by_cases h : (findGroup s.groups g).isSome
  · rw [ensureGroup, if_pos h]
    exact hinv
  · rw [ensureGroup, if_neg h]
    intro g' a ha
    rw [getGroup] at ha ⊢
    cases hf : findGroup s.groups g' with
    | some r =>
      have hfind : findGroup ({ s with groups := s.groups ++ [(g, emptyGroup)] } : RState).groups g'
          = some r := by
        show findGroup (s.groups ++ [(g, emptyGroup)]) g' = some r
        rw [findGroup_append_single, hf]
      rw [hfind] at ha ⊢
      have := hinv g' a (by rw [getGroup, hf]; exact ha)
      rw [getGroup, hf] at this
      exact this
    | none =>
      by_cases hgg : g = g'
      · have hfind : findGroup ({ s with groups := s.groups ++ [(g, emptyGroup)] } : RState).groups g'
            = some emptyGroup := by
          show findGroup (s.groups ++ [(g, emptyGroup)]) g' = some emptyGroup
          rw [findGroup_append_single, hf, if_pos hgg]
        rw [hfind] at ha
        simp [emptyGroup] at ha
      · have hfind : findGroup ({ s with groups := s.groups ++ [(g, emptyGroup)] } : RState).groups g'
            = none := by
          show findGroup (s.groups ++ [(g, emptyGroup)]) g' = none
          rw [findGroup_append_single, hf, if_neg hgg]
        rw [hfind] at ha
        simp [emptyGroup] at ha

theorem keys_setGroupList : ∀ (l : List (String × GroupState)) (g : String) (gs : GroupState),
    (setGroupList l g gs).map Prod.fst = l.map Prod.fst := by
  intro l
  induction l with
  | nil => intro g gs; rfl
  | cons p ps ih =>
    intro g gs
    by_cases hp : p.1 = g
    · simp [setGroupList, hp]
    · simp [setGroupList, hp, ih]

theorem mem_setGroupList : ∀ (l : List (String × GroupState)) (g : String) (gs : GroupState)
    (p : String × GroupState), p ∈ setGroupList l g gs → p ∈ l ∨ p = (g, gs) := by
  intro l
  induction l with
  | nil => intro g gs p hp; simp [setGroupList] at hp
  | cons q qs ih =>
    intro g gs p hp
    by_cases hq : q.1 = g
    · rw [setGroupList, if_pos hq] at hp
      rcases List.mem_cons.mp hp with h | h
      · exact Or.inr h
      · exact Or.inl (List.mem_cons_of_mem q h)
    · rw [setGroupList, if_neg hq] at hp
      rcases List.mem_cons.mp hp with h | h
      · exact Or.inl (h ▸ List.mem_cons_self q qs)
      · rcases ih g gs p h with h2 | h2
        · exact Or.inl (List.mem_cons_of_mem q h2)
        · exact Or.inr h2

theorem WF_setGroup (env : Nat → El) (s : RState) (g : String) (gs : GroupState)
    (hwf : WF env s) (hm : ∀ x ∈ gs.list, (env x).group = g)
    (hf : fbOK env g gs.fallback = true) : WF env (setGroup s g gs) := by
  constructor
  · show ((setGroupList s.groups g gs).map Prod.fst).Nodup
    rw [keys_setGroupList]
    exact hwf.1
  · intro p hp
    rcases mem_setGroupList s.groups g gs p hp with h | h
    · exact hwf.2 p h
    · rw [h]
      exact ⟨hm, hf⟩

theorem Inv_setGroup (s : RState) (g : String) (gs : GroupState) (hinv : Inv s)
    (hae : ∀ a, gs.activeElement = some a → a ∈ gs.list) : Inv (setGroup s g gs) := by
  intro g' a ha
  rw [getGroup_setGroup] at ha
  rw [getGroup_setGroup]
  by_cases h : g' = g ∧ (findGroup s.groups g).isSome = true
  · rw [if_pos h] at ha
    rw [if_pos h]
    exact hae a ha
  · rw [if_neg h] at ha
    rw [if_neg h]
    exact hinv g' a ha

theorem WF_getGroup_cond (env : Nat → El) (s : RState) (hwf : WF env s) (g : String) :
    (∀ x ∈ (getGroup s g).list, (env x).group = g)
      ∧ fbOK env g (getGroup s g).fallback = true := by
  have hhg := WF_HG env s hwf g
  refine ⟨hhg.1, ?_⟩
  cases hf : (getGroup s g).fallback with
  | none => simp [fbOK]
  | some f =>
    have := hhg.2 f hf
    simp [fbOK, this]

theorem mae_inv (env : Nat → El) (loc : Loc) (e : Nat) (s : RState)
    (hmem : e ∈ (getGroup s (env e).group).list) (hinv : Inv s) :
    Inv (maybeActivateElement env loc e s).2.1 := by
  intro g' a ha
  have hls := (getGroup_shape_agree _ _ (mae_shape env loc e s) g').1
  rw [hls]
  rw [mae_ae env loc e s g'] at ha
  by_cases h : g' = (env e).group ∧ (findGroup s.groups (env e).group).isSome = true
      ∧ matchedEnabled env loc e = true
  · rw [if_pos h] at ha
    rw [h.1, ← Option.some.inj ha]
    exact hmem
  · rw [if_neg h] at ha
    exact hinv g' a ha

theorem register_tail_wf_inv (env : Nat → El) (loc : Loc) (e : Nat) (u s4 s5 : RState)
    (hwu : WF env u) (hiu : Inv u)
    (husome : (findGroup u.groups (env e).group).isSome = true)
    (hs4 : s4 = setGroup u (env e).group
      { getGroup u (env e).group with list := (getGroup u (env e).group).list ++ [e] })
    (hs5 : s5 = if (getGroup s4 (env e).group).fallback = none ∧ (env e).fallbackDecl = true
      then setGroup s4 (env e).group { getGroup s4 (env e).group with fallback := some e }
      else s4) :
    ∀ (E1 E2 : List Event),
    WF env (if (getGroup s5 (env e).group).fallback = none
      then ((maybeActivateElement env loc e s5).2.1, E1)
      else ((activateCurrentPath env loc s5).1, E2)).1
    ∧ Inv (if (getGroup s5 (env e).group).fallback = none
      then ((maybeActivateElement env loc e s5).2.1, E1)
      else ((activateCurrentPath env loc s5).1, E2)).1 := by
  intro E1 E2
  have hw4 : WF env s4 := by
    rw [hs4]
    apply WF_setGroup env u (env e).group _ hwu
    · intro x hx
      rcases List.mem_append.mp hx with h | h
      · exact (WF_getGroup_cond env u hwu (env e).group).1 x h
      · simp at h
        rw [h]
    · exact (WF_getGroup_cond env u hwu (env e).group).2
  have hi4 : Inv s4 := by
    rw [hs4]
    apply Inv_setGroup u (env e).group _ hiu
    intro a ha
    exact List.mem_append_left _ (hiu (env e).group a ha)
  have hsome4 : (findGroup s4.groups (env e).group).isSome = true := by
    rw [hs4]
    show (findGroup (setGroupList u.groups (env e).group _) (env e).group).isSome = true
    rw [findGroup_setGroupList, if_pos ⟨rfl, husome⟩]
    rfl
  have hmem4 : e ∈ (getGroup s4 (env e).group).list := by
    rw [hs4, getGroup_setGroup, if_pos ⟨rfl, husome⟩]
    exact List.mem_append_right _ (List.mem_singleton.mpr rfl)
  have h5 : WF env s5 ∧ Inv s5 ∧ (findGroup s5.groups (env e).group).isSome = true
      ∧ e ∈ (getGroup s5 (env e).group).list := by
    rw [hs5]
    by_cases hc : (getGroup s4 (env e).group).fallback = none ∧ (env e).fallbackDecl = true
    · rw [if_pos hc]
      refine ⟨?_, ?_, ?_, ?_⟩
      · apply WF_setGroup env s4 (env e).group _ hw4
        · intro x hx
          exact (WF_getGroup_cond env s4 hw4 (env e).group).1 x hx
        · simp [fbOK]
      · apply Inv_setGroup s4 (env e).group _ hi4
        intro a ha
        exact hi4 (env e).group a ha
      · show (findGroup (setGroupList s4.groups (env e).group _) (env e).group).isSome = true
        rw [findGroup_setGroupList, if_pos ⟨rfl, hsome4⟩]
        rfl
      · rw [getGroup_setGroup, if_pos ⟨rfl, hsome4⟩]
        exact hmem4
    · rw [if_neg hc]
      exact ⟨hw4, hi4, hsome4, hmem4⟩
  by_cases hfin : (getGroup s5 (env e).group).fallback = none
  · rw [if_pos hfin]
    exact ⟨WF_shape env (mae_shape env loc e s5).symm h5.1,
      mae_inv env loc e s5 h5.2.2.2 h5.2.1⟩
  · rw [if_neg hfin]
    exact ⟨acp_wf env loc s5 h5.1, acp_inv env loc s5 h5.1 h5.2.1⟩

/-- Claim C8 (amended): the invariant that a group's recorded active
element, whenever set, is a member of that group's member list is
preserved by registration (registerRoute) and by a full reconciliation
pass (activateCurrentPath); unregistration does not preserve it, since
unregisterRoute removes the element from the member list but leaves the
group's active-element record untouched. -/
theorem inv_preserved_register_reconcile (env : Nat → El) (loc : Loc) (e : Nat) (s : RState)
    (hwf : WF env s) (hinv : Inv s) :
    Inv (activateCurrentPath env loc s).1 ∧ Inv (registerRoute env loc e s).1 := by
  refine ⟨acp_inv env loc s hwf hinv, ?_⟩
  have h1w : WF env (ensureGroup s (env e).group) := WF_ensureGroup env s (env e).group hwf
  have h1i : Inv (ensureGroup s (env e).group) := Inv_ensureGroup s (env e).group hinv
  have h1some : (findGroup (ensureGroup s (env e).group).groups (env e).group).isSome = true := by
    by_cases h : (findGroup s.groups (env e).group).isSome
    · rw [ensureGroup, if_pos h]
      exact h
    · rw [ensureGroup, if_neg h]
      show (findGroup (s.groups ++ [((env e).group, emptyGroup)]) (env e).group).isSome = true
      rw [findGroup_append_single]
      have hnone : findGroup s.groups (env e).group = none := by
        cases hf : findGroup s.groups (env e).group
        · rfl
        · rw [hf] at h
          exact absurd rfl h
      rw [hnone]
      simp
  simp only [registerRoute]
  by_cases hri : (ensureGroup s (env e).group).routerInstalled
  · rw [if_pos hri]
    refine (register_tail_wf_inv env loc e _ _ _ ?_ ?_ ?_ rfl rfl _ _).2
    · exact h1w
    · exact h1i
    · exact h1some
  · rw [if_neg hri]
    have h2w : WF env (activateCurrentPath env loc (ensureGroup s (env e).group)).1 :=
      acp_wf env loc _ h1w
    have h2i : Inv (activateCurrentPath env loc (ensureGroup s (env e).group)).1 :=
      acp_inv env loc _ h1w h1i
    have h2some : (findGroup (activateCurrentPath env loc
        (ensureGroup s (env e).group)).1.groups (env e).group).isSome = true := by
      rw [findGroup_isSome_shape_agree (activateCurrentPath env loc
        (ensureGroup s (env e).group)).1 (ensureGroup s (env e).group)
        (pg_shape env loc _ _) (env e).group]
      exact h1some
    refine (register_tail_wf_inv env loc e _ _ _ ?_ ?_ ?_ rfl rfl _ _).2
    · exact h2w
    · exact h2i
    · exact h2some

theorem inv_of_ae_none (s : RState) (h : ∀ p ∈ s.groups, p.2.activeElement = none) :
    Inv s := by
  intro g a ha
  exfalso
  cases hf : findGroup s.groups g with
  | none =>
    rw [getGroup, hf] at ha
    simp [emptyGroup] at ha
  | some gs =>
    have h2 : gs.activeElement = none := h (g, gs) (findGroup_mem s.groups g gs hf)
    rw [getGroup, hf] at ha
    have ha2 : gs.activeElement = some a := ha
    rw [h2] at ha2
    simp at ha2

/-- Claim C8 witness: preservation applied at the concrete well-formed
state with members 0, 1 and fallback 2 in the default group, with
element 1 being registered. -/
theorem inv_preserved_register_reconcile_witness :
    WF envA stF
  ∧ (Inv (activateCurrentPath envA locA stF).1 ∧ Inv (registerRoute envA locA 1 stF).1) :=
  ⟨by decide, inv_preserved_register_reconcile envA locA 1 stF (by decide)
    (inv_of_ae_none stF (by decide))⟩

/-- Claim C8 counterexample: the state stU satisfies the invariant (its
active element 0 is in the member list), but unregistering element 0
filters it out of the member list while the group's active-element
record still names it, violating the invariant. -/
theorem unregister_breaks_inv :
    Inv stU
  ∧ (getGroup (unregisterRoute envA 0 stU) "default").activeElement = some 0
  ∧ (getGroup (unregisterRoute envA 0 stU) "default").list = []
  ∧ ¬ Inv (unregisterRoute envA 0 stU) := by
  refine ⟨?_, by decide, by decide, ?_⟩
  · intro g a ha
    by_cases hg : "default" = g
    · have hf : findGroup stU.groups g = some ⟨[0], none, some 0⟩ := by
        simp [stU, findGroup, hg]
      rw [getGroup, hf] at ha ⊢
      have ha2 : a = 0 := by
        have : (some 0 : Option Nat) = some a := ha
        exact (Option.some.inj this).symm
      rw [ha2]
      simp
    · have hf : findGroup stU.groups g = none := by
        simp [stU, findGroup, hg]
      rw [getGroup, hf] at ha
      simp [emptyGroup] at ha
  · intro hI
    have h0 := hI "default" 0 (by decide)
    rw [show (getGroup (unregisterRoute envA 0 stU) "default").list = [] from by decide] at h0
    simp at h0

/-- Claim C10 witness: the disabled element 3 on the non-matching
location /b, starting from a state where its flag is stale. -/
theorem maybeActivateElement_disabled_unmatched_witness :
    ((envA 3).disableActivation = true ∧ truthy (mval envA ⟨"/b", ""⟩ 3) = false)
  ∧ ((maybeActivateElement envA ⟨"/b", ""⟩ 3 stA).1 = false
      ∧ (maybeActivateElement envA ⟨"/b", ""⟩ 3 stA).2.2 = []
      ∧ (∀ x, (maybeActivateElement envA ⟨"/b", ""⟩ 3 stA).2.1.active x =
          if x = 3 then false else stA.active x)
      ∧ (maybeActivateElement envA ⟨"/b", ""⟩ 3 stA).2.1.groups = stA.groups) :=
  ⟨⟨by decide, by decide⟩,
   maybeActivateElement_disabled_unmatched envA ⟨"/b", ""⟩ 3 stA (by decide) (by decide)⟩

end Routify
